import Mathlib

/-
  Verification of the response-normalization and typed-deserialization
  pipeline of the vpic-api client library.

  The development shallowly embeds the pipeline's Python source:
    * src/vpic/transforms.py   (standardize, snake_case and their tables)
    * src/vpic/exceptions.py   (handle_error_response and the error kinds)
    * src/vpic/models.py       (the dataclass record types)
    * src/vpic/typed_client.py (the unknown-field policy and schema loading)

  JSON values are modelled by the inductive `Json`; Python dicts are
  insertion-ordered association lists with Python's update-in-place
  semantics (`pyDictInsert`).  Fallible Python code is modelled in
  `Except PyExc`, where `PyExc` enumerates the runtime exceptions the
  embedded code can raise.
-/

/-- A JSON value as decoded by the Python client: strings, numbers,
booleans, null, arrays, and insertion-ordered objects. -/
inductive Json where
  | str : String → Json
  | num : Int → Json
  | bool : Bool → Json
  | null : Json
  | arr : List Json → Json
  | obj : List (String × Json) → Json

/-- Python runtime exceptions that the embedded code can raise. -/
inductive PyExc where
  | indexError : PyExc
  | attributeError : PyExc
  | jsonDecodeError : PyExc
  | validationError : PyExc
  | valueError : PyExc
  | frozenInstanceError : PyExc
deriving DecidableEq

/-- `Json.isNull v` is true exactly on Python `None`. -/
def Json.isNull : Json → Bool
  | .null => true
  | _ => false

/-- Python dict assignment `d[k] = v`: if `k` is present its value is
updated in place (position kept), otherwise the pair is appended. -/
def pyDictInsert : List (String × Json) → String → Json → List (String × Json)
  | [], k, v => [(k, v)]
  | (k', v') :: rest, k, v =>
    if k' = k then (k', v) :: rest else (k', v') :: pyDictInsert rest k v

/-- Python dict lookup `d.get(k)`: the value at the first (unique)
occurrence of `k`, or `none` when absent. -/
def pyLookup : List (String × Json) → String → Option Json
  | [], _ => none
  | (k', v) :: rest, k => if k' = k then some v else pyLookup rest k

/-- Python `del d[k]` / `delattr`: removes the entry for `k`
(no-op when absent; in the embedded flows the key is always present). -/
def pyDictRemove : List (String × Json) → String → List (String × Json)
  | [], _ => []
  | (k', v) :: rest, k => if k' = k then rest else (k', v) :: pyDictRemove rest k

/-- Python `str.startswith`, on the underlying character lists. -/
def strStartsWith (s pre : String) : Bool :=
  pre.data.isPrefixOf s.data

/- ------------------------------------------------------------------
   src/vpic/transforms.py
   ------------------------------------------------------------------ -/

/-- The `_STANDARD_VARIABLE_NAMES` lookup table of
src/vpic/transforms.py (lines 4-25), in source order. -/
def STANDARD_VARIABLE_NAMES : List (String × String) :=
  [("ID", "Id"),
   ("GCWR", "GCWRFrom"),
   ("GCWR_to", "GCWRTo"),
   ("GVWR", "GVWRFrom"),
   ("GVWR_to", "GVWRTo"),
   ("Make_ID", "MakeId"),
   ("MakeID", "MakeId"),
   ("Make_Name", "Make"),
   ("MakeName", "Make"),
   ("Mfr_CommonName", "ManufacturerCommonName"),
   ("Mfr_ID", "ManufacturerId"),
   ("Mfr_Name", "Manufacturer"),
   ("ManufacturerName", "Manufacturer"),
   ("MfrId", "ManufacturerId"),
   ("MfrName", "Manufacturer"),
   ("Model_ID", "ModelId"),
   ("Model_Name", "Model"),
   ("ModelName", "Model"),
   ("ModelID", "ModelId"),
   ("VehicleTypeName", "VehicleType")]

/-- `_STANDARD_VARIABLE_NAMES.get(key, key)`: the canonical name of a
key, or the key itself when it is not in the table. -/
def rename (k : String) : String :=
  match STANDARD_VARIABLE_NAMES.lookup k with
  | some k' => k'
  | none => k

mutual

/-- `standardize` of src/vpic/transforms.py (lines 28-53): rewrite every
dict key through the lookup table, recursing into dicts and lists and
returning every other value unchanged.  Dict comprehension semantics:
entries are inserted left to right with `pyDictInsert`. -/
def standardize : Json → Json
  | .str s => .str s
  | .num n => .num n
  | .bool b => .bool b
  | .null => .null
  | .arr xs => .arr (standardizeList xs)
  | .obj kvs => .obj (standardizeObj kvs [])

/-- The list branch of `standardize`: element-wise, order preserved. -/
def standardizeList : List Json → List Json
  | [] => []
  | x :: xs => standardize x :: standardizeList xs

/-- The dict-comprehension of `standardize`, with accumulator. -/
def standardizeObj : List (String × Json) → List (String × Json) → List (String × Json)
  | [], acc => acc
  | (k, v) :: rest, acc => standardizeObj rest (pyDictInsert acc (rename k) (standardize v))

end

/-- Python `str.lower()` on one character (the keys the client
transforms are ASCII, where lowering adds 32 to an uppercase code). -/
def pyLowerChar (c : Char) : Char :=
  if c.isUpper then Char.ofNat (c.toNat + 32) else c

mutual

/-- The substitution `_VARIABLE_NAME_RE.sub(r"_\1", key)` of
src/vpic/transforms.py line 90.  The pattern `([A-Z]+)(?=([a-z_]|))`
matches each maximal run of uppercase letters (the lookahead's empty
alternative always succeeds), so the substitution prefixes every
maximal uppercase run with an underscore. -/
def subUpperRuns : List Char → List Char
  | [] => []
  | c :: cs => if c.isUpper then '_' :: c :: upperRun cs else c :: subUpperRuns cs

/-- Continuation of `subUpperRuns` inside a maximal uppercase run. -/
def upperRun : List Char → List Char
  | [] => []
  | c :: cs => if c.isUpper then c :: upperRun cs else c :: subUpperRuns cs

end

/-- Fuelled body of `pyReplace`; the fuel is consumed once per step
while the subject list shrinks by at least one character per step, so
fuel `s.length` never runs out. -/
def pyReplaceAux (old new : List Char) : Nat → List Char → List Char
  | 0, s => s
  | fuel + 1, s =>
    if old ≠ [] ∧ old.isPrefixOf s ∧ s ≠ [] then
      new ++ pyReplaceAux old new fuel (s.drop old.length)
    else
      match s with
      | [] => []
      | c :: cs => c :: pyReplaceAux old new fuel cs

/-- Python `s.replace(old, new)` for non-empty `old`: every
non-overlapping occurrence, scanned left to right in a single pass. -/
def pyReplace (old new s : List Char) : List Char :=
  pyReplaceAux old new s.length s

/-- Python `old in s` substring containment. -/
def containsSub (old : List Char) : List Char → Bool
  | [] => old.isPrefixOf []
  | c :: cs => old.isPrefixOf (c :: cs) || containsSub old cs

/-- The `_WORDS_TO_SEPARATE` override table of src/vpic/transforms.py
(lines 58-67), in source (iteration) order. -/
def WORDS_TO_SEPARATE : List (String × String) :=
  [("ncsa", "ncsa_"),
   ("evdrive", "ev_drive"),
   ("sae", "sae_"),
   ("dotcode", "dot_code"),
   ("gcwrfrom", "gcwr_from"),
   ("gvwrfrom", "gvwr_from"),
   ("gcwrto", "gcwr_to"),
   ("gvwrto", "gvwr_to")]

/-- The compound-word loop of `snake_case` (lines 95-98): the first
table entry contained in the key replaces all of its occurrences, then
the loop breaks. -/
def applyCompound (k : List Char) : List Char :=
  match WORDS_TO_SEPARATE.find? (fun p => containsSub p.1.data k) with
  | some (o, n) => pyReplace o.data n.data k
  | none => k

/-- The per-key transformation of `snake_case` (lines 90-98): regex
substitution, lowercasing, collapsing `__` once, stripping one leading
underscore (raising `IndexError` on an empty intermediate key, from
`new_key[0]`), then the compound-word override loop. -/
def snakeKeyE (k : String) : Except PyExc String :=
  match pyReplace ['_', '_'] ['_'] ((subUpperRuns k.data).map pyLowerChar) with
  | [] => .error .indexError
  | c :: cs => .ok ⟨applyCompound (if c = '_' then cs else c :: cs)⟩

mutual

/-- The loop body of `snake_case` (lines 89-103) with the accumulated
`new_object`: each key is transformed, list values are element-wise
re-processed through `snake_case` (raising `AttributeError` on a
non-dict element, from `v.items()`), and the entry is stored with
Python dict assignment. -/
def snakeEntries : List (String × Json) → List (String × Json) → Except PyExc (List (String × Json))
  | [], acc => .ok acc
  | (k, Json.arr xs) :: rest, acc =>
    match snakeKeyE k with
    | .error e => .error e
    | .ok nk =>
      match snakeList xs with
      | .error e => .error e
      | .ok xs' => snakeEntries rest (pyDictInsert acc nk (Json.arr xs'))
  | (k, v) :: rest, acc =>
    match snakeKeyE k with
    | .error e => .error e
    | .ok nk => snakeEntries rest (pyDictInsert acc nk v)

/-- The list comprehension `[snake_case(v) for v in value]`. -/
def snakeList : List Json → Except PyExc (List Json)
  | [] => .ok []
  | v :: xs =>
    match snakeValue v with
    | .error e => .error e
    | .ok v' =>
      match snakeList xs with
      | .error e => .error e
      | .ok xs' => .ok (v' :: xs')

/-- `snake_case(v)` applied to a list element: dicts are processed
recursively; any non-dict raises `AttributeError` at `v.items()`. -/
def snakeValue : Json → Except PyExc Json
  | .obj kvs =>
    match snakeEntries kvs [] with
    | .error e => .error e
    | .ok kvs' => .ok (.obj kvs')
  | _ => .error .attributeError

end

/-- `snake_case` of src/vpic/transforms.py (lines 70-104), on a dict. -/
def snake_case (kvs : List (String × Json)) : Except PyExc (List (String × Json)) :=
  snakeEntries kvs []

/- ------------------------------------------------------------------
   src/vpic/exceptions.py
   ------------------------------------------------------------------ -/

/-- The exception classes of src/vpic/exceptions.py: `VPICError` and
its subclasses. -/
inductive ErrKind where
  | vpicError : ErrKind
  | invalidRequest : ErrKind
  | methodNotFound : ErrKind
  | invalidParameters : ErrKind
  | tooManyRequests : ErrKind
  | internalError : ErrKind
  | serviceUnavailable : ErrKind
deriving DecidableEq

/-- A failed `requests.models.Response` as consumed by
`handle_error_response`: the status code, the result of
`resp.headers.get('content-type')` (`none` when the header is absent),
and the result of `resp.json()` (`none` when the body is not
JSON-parseable, in which case `resp.json()` raises). -/
structure PyResponse where
  status_code : Nat
  content_type : Option String
  json_body : Option Json

/-- What a call to `handle_error_response` does: either it raises one
of the library's own error kinds (carrying the message and detail it
extracted), or an unhandled Python exception escapes it. -/
inductive ClassifyOutcome where
  | raised : ErrKind → Json → Json → ClassifyOutcome
  | unhandled : PyExc → ClassifyOutcome

/-- The `HTTP_ERRORS` status-code dispatch table (lines 8-14) read
through `.get(status_code, VPICError)`. -/
def httpErrorKind (status : Nat) : ErrKind :=
  if status = 400 then .invalidRequest
  else if status = 404 then .methodNotFound
  else if status = 429 then .tooManyRequests
  else if status = 500 then .internalError
  else if status = 503 then .serviceUnavailable
  else .vpicError

/-- Lines 25-29: pick the table's kind, override it with
`InvalidParameters` when `detail.startswith("The parameters
dictionary")`, and raise.  `startswith` on a non-string `detail`
(in particular Python `None`, when the JSON body has no
`messageDetail` entry) raises `AttributeError`. -/
def classifyRaise (status : Nat) (message detail : Json) : ClassifyOutcome :=
  match detail with
  | .str d =>
    .raised
      (if strStartsWith d "The parameters dictionary" then .invalidParameters
       else httpErrorKind status)
      message (.str d)
  | _ => .unhandled .attributeError

/-- `handle_error_response` of src/vpic/exceptions.py (lines 6-29).
When the `content-type` header is absent or equals `application/json`
the body is parsed with `resp.json()` (whose `JSONDecodeError`
propagates on a malformed body, and whose non-dict result makes
`error.get` raise `AttributeError`); otherwise message and detail
default to empty strings. -/
def handle_error_response (resp : PyResponse) : ClassifyOutcome :=
  if resp.content_type.getD "application/json" = "application/json" then
    match resp.json_body with
    | none => .unhandled .jsonDecodeError
    | some (.obj kvs) =>
      classifyRaise resp.status_code
        ((pyLookup kvs "message").getD .null)
        ((pyLookup kvs "messageDetail").getD .null)
    | some _ => .unhandled .attributeError
  else
    classifyRaise resp.status_code (.str "") (.str "")

/- ------------------------------------------------------------------
   src/vpic/models.py and src/vpic/typed_client.py
   ------------------------------------------------------------------ -/

/-- Modelled from the spec: the schema-building library (`desert` /
`marshmallow`, a dependency outside this repository) is what turns a
dataclass field into a loader entry.  One `FieldSpec` is a field's
name and the value the loader uses when the input omits the key
(`none` means the field is required): a dataclass default makes the
field optional with that default, an `Optional` type without a
default defaults to `None`, and any other field is required. -/
structure FieldSpec where
  name : String
  default : Option Json

/-- Which `__post_init__` body a record type runs (src/vpic/models.py
lines 61-64 and 294-300); `none` for the record types without one. -/
inductive PostInit where
  | none : PostInit
  | vehicleType : PostInit
  | wmi : PostInit
deriving DecidableEq

/-- A record type as the Typed Mapper sees it: its declared fields in
order, the `@dataclass` flags of src/vpic/models.py, and its
`__post_init__`. -/
structure DataclassSpec where
  fields : List FieldSpec
  frozen : Bool
  eq : Bool
  postInit : PostInit

/-- One `__post_init__` rename step (src/vpic/models.py lines 61-64
and 294-300): `if self.src is not None: self.dst = self.src` followed
by `del self.src`. -/
def postRename (flds : List (String × Json)) (src dst : String) :
    List (String × Json) :=
  pyDictRemove
    (match pyLookup flds src with
     | some v => if v.isNull then flds else pyDictInsert flds dst v
     | Option.none => flds)
    src

/-- Run a record type's `__post_init__` on the freshly constructed
field assignment.  `VehicleType` copies a non-`None` `name` into
`vehicle_type` and deletes `name`; `WorldManufacturerIndex` does the
same for `id`→`manufacturer_id` and then `name`→`manufacturer`. -/
def runPostInit : PostInit → List (String × Json) → List (String × Json)
  | .none, flds => flds
  | .vehicleType, flds => postRename flds "name" "vehicle_type"
  | .wmi, flds => postRename (postRename flds "id" "manufacturer_id") "name" "manufacturer"

/-- `setattr` on a dataclass instance: the generated `__setattr__` of a
`frozen=True` dataclass raises `FrozenInstanceError`; a `frozen=False`
dataclass assigns the attribute. -/
def dataclassSetattr (spec : DataclassSpec) (inst : List (String × Json))
    (k : String) (v : Json) : Except PyExc (List (String × Json)) :=
  if spec.frozen then .error .frozenInstanceError else .ok (pyDictInsert inst k v)

mutual

/-- Python `==` on JSON values: scalars by value, lists element-wise
after a length check, dicts by content — equal lengths and, for every
key of the left dict, an equal value under the same key in the right
dict (insertion order does not matter, matching Python's dict
equality; a Python dict never has duplicate keys). -/
def jsonEq : Json → Json → Bool
  | .str x, .str y => x == y
  | .num x, .num y => x == y
  | .bool x, .bool y => x == y
  | .null, .null => true
  | .arr xs, .arr ys => jsonListEq xs ys
  | .obj xs, .obj ys => xs.length == ys.length && jsonObjEq xs ys
  | _, _ => false

/-- Python `==` on lists: equal lengths, elements compared in order. -/
def jsonListEq : List Json → List Json → Bool
  | [], [] => true
  | x :: xs, y :: ys => jsonEq x y && jsonListEq xs ys
  | _, _ => false

/-- Left-to-right half of Python dict `==`: every entry of the left
dict has an equal value under its key in the right dict. -/
def jsonObjEq : List (String × Json) → List (String × Json) → Bool
  | [], _ => true
  | (k, v) :: rest, ys =>
    (match pyLookup ys k with
     | some v' => jsonEq v v'
     | none => false) && jsonObjEq rest ys

end

mutual

/-- A JSON value that denotes a real Python value: every dict in it
has pairwise-distinct keys.  (A `Json.obj` with duplicate keys
corresponds to no Python dict.) -/
def wfJson : Json → Bool
  | .arr xs => wfList xs
  | .obj kvs => decide (kvs.map Prod.fst).Nodup && wfEntries kvs
  | _ => true

/-- Well-formedness of a list's elements. -/
def wfList : List Json → Bool
  | [] => true
  | x :: xs => wfJson x && wfList xs

/-- Well-formedness of a dict's values. -/
def wfEntries : List (String × Json) → Bool
  | [] => true
  | (_, v) :: rest => wfJson v && wfEntries rest

end

/-- The tuple `(self.f1, ..., self.fn)` that the generated `__eq__` of
a dataclass builds from the class's fixed field list, reading the
instance's attributes left to right: accessing a field that
`__post_init__` deleted raises `AttributeError`. -/
def fieldTuple (fields : List FieldSpec) (inst : List (String × Json)) :
    Except PyExc (List Json) :=
  match fields with
  | [] => .ok []
  | f :: fs =>
    match pyLookup inst f.name with
    | some v =>
      match fieldTuple fs inst with
      | .ok t => .ok (v :: t)
      | .error e => .error e
    | none => .error .attributeError

/-- The generated `__eq__` of an `eq=True` dataclass on two same-class
instances: build `self`'s field tuple, then `other`'s, then compare
them with Python `==`.  A deleted attribute surfaces as
`AttributeError` (from the left operand first). -/
def dataclassEq (spec : DataclassSpec) (a b : List (String × Json)) :
    Except PyExc Bool :=
  match fieldTuple spec.fields a with
  | .error e => .error e
  | .ok ta =>
    match fieldTuple spec.fields b with
    | .error e => .error e
    | .ok tb => .ok (jsonListEq ta tb)

/-- The `unknown` meta option handed to `desert.schema`:
`marshmallow.EXCLUDE` or `marshmallow.RAISE`. -/
inductive Unknown where
  | exclude : Unknown
  | raise : Unknown
deriving DecidableEq

/-- `TypedClient.__init__` (src/vpic/typed_client.py lines 75-86):
the `unknown` argument selects one of exactly two policies, anything
else raises `ValueError`. -/
def typedClientInitMeta (unknown : String) : Except PyExc Unknown :=
  if unknown = "EXCLUDE" then .ok .exclude
  else if unknown = "RAISE" then .ok .raise
  else .error .valueError

/-- `declared spec k`: whether the record type declares a field `k`. -/
def declared (spec : DataclassSpec) (k : String) : Bool :=
  spec.fields.any (fun f => f.name = k)

/-- Modelled from the spec: the field-loading contract of the
`desert`/`marshmallow` dependency outside this repository.  Load one
declared field: the input's value when the key is present, the
field's default when absent, and a `ValidationError` ("missing data
for required field") when absent with no default. -/
def loadField (data : List (String × Json)) (f : FieldSpec) : Except PyExc (String × Json) :=
  match pyLookup data f.name with
  | some v => .ok (f.name, v)
  | none =>
    match f.default with
    | some d => .ok (f.name, d)
    | none => .error .validationError

/-- Load every declared field in declaration order. -/
def loadFields (data : List (String × Json)) : List FieldSpec → Except PyExc (List (String × Json))
  | [] => .ok []
  | f :: fs =>
    match loadField data f with
    | .error e => .error e
    | .ok kv =>
      match loadFields data fs with
      | .error e => .error e
      | .ok rest => .ok (kv :: rest)

/-- Modelled from the spec: the missing
`desert.schema(cls, meta={"unknown": policy}).load(data)` machinery
(a dependency outside this repository).  Under `RAISE` any input key
not declared on the record type raises `ValidationError`; under
`EXCLUDE` undeclared keys are ignored; declared fields load by value
/ default / required-failure; the dataclass is then constructed,
running its `__post_init__`. -/
def schemaLoad (spec : DataclassSpec) (policy : Unknown) (data : List (String × Json)) :
    Except PyExc (List (String × Json)) :=
  if policy = .raise ∧ data.any (fun p => !(declared spec p.1)) then .error .validationError
  else
    match loadFields data spec.fields with
    | .error e => .error e
    | .ok flds => .ok (runPostInit spec.postInit flds)

namespace Models

/-- Dataclass descriptor translated from `Document` in src/vpic/models.py. -/
def Document : DataclassSpec where
  fields := [
    ⟨"cover_letter_url", none⟩,
    ⟨"letter_date", none⟩,
    ⟨"manufacturer_id", none⟩,
    ⟨"manufacturer", none⟩,
    ⟨"name", none⟩,
    ⟨"url", none⟩,
    ⟨"type", some Json.null⟩,
    ⟨"model_year_from", some Json.null⟩,
    ⟨"model_year_to", some Json.null⟩
  ]
  frozen := true
  eq := true
  postInit := PostInit.none

/-- Dataclass descriptor translated from `Make` in src/vpic/models.py. -/
def Make : DataclassSpec where
  fields := [
    ⟨"make_id", none⟩,
    ⟨"make", none⟩,
    ⟨"manufacturer_id", some Json.null⟩,
    ⟨"manufacturer", some Json.null⟩,
    ⟨"vehicle_type_id", some Json.null⟩,
    ⟨"vehicle_type", some Json.null⟩
  ]
  frozen := true
  eq := true
  postInit := PostInit.none

/-- Dataclass descriptor translated from `Model` in src/vpic/models.py. -/
def Model : DataclassSpec where
  fields := [
    ⟨"model_id", none⟩,
    ⟨"model", none⟩,
    ⟨"make_id", some Json.null⟩,
    ⟨"make", some Json.null⟩,
    ⟨"vehicle_type_id", some Json.null⟩,
    ⟨"vehicle_type", some Json.null⟩
  ]
  frozen := true
  eq := true
  postInit := PostInit.none

/-- Dataclass descriptor translated from `Manufacturer` in src/vpic/models.py. -/
def Manufacturer : DataclassSpec where
  fields := [
    ⟨"manufacturer_id", none⟩,
    ⟨"manufacturer", none⟩,
    ⟨"manufacturer_common_name", none⟩
  ]
  frozen := true
  eq := true
  postInit := PostInit.none

/-- Dataclass descriptor translated from `ManufacturerType` in src/vpic/models.py. -/
def ManufacturerType : DataclassSpec where
  fields := [
    ⟨"name", none⟩
  ]
  frozen := true
  eq := true
  postInit := PostInit.none

/-- Dataclass descriptor translated from `VehicleType` in src/vpic/models.py
(lines 50-64): note `frozen=False`, and the `__post_init__`. -/
def VehicleType : DataclassSpec where
  fields := [
    ⟨"name", some Json.null⟩,
    ⟨"vehicle_type", some Json.null⟩,
    ⟨"vehicle_type_id", some Json.null⟩,
    ⟨"make", some Json.null⟩,
    ⟨"make_id", some Json.null⟩,
    ⟨"gvwr_from", some Json.null⟩,
    ⟨"gvwr_to", some Json.null⟩,
    ⟨"is_primary", some Json.null⟩
  ]
  frozen := false
  eq := true
  postInit := PostInit.vehicleType

/-- Dataclass descriptor translated from `ManufacturerDetail` in src/vpic/models.py. -/
def ManufacturerDetail : DataclassSpec where
  fields := [
    ⟨"manufacturer_id", none⟩,
    ⟨"manufacturer", none⟩,
    ⟨"manufacturer_common_name", some Json.null⟩,
    ⟨"manufacturer_types", none⟩,
    ⟨"vehicle_types", none⟩,
    ⟨"address", some Json.null⟩,
    ⟨"address2", some Json.null⟩,
    ⟨"city", some Json.null⟩,
    ⟨"contact_email", some Json.null⟩,
    ⟨"contact_fax", some Json.null⟩,
    ⟨"contact_phone", some Json.null⟩,
    ⟨"country", some Json.null⟩,
    ⟨"dbas", some Json.null⟩,
    ⟨"equipment_items", some Json.null⟩,
    ⟨"last_updated", some Json.null⟩,
    ⟨"other_manufacturer_details", some Json.null⟩,
    ⟨"postal_code", some Json.null⟩,
    ⟨"primary_product", some Json.null⟩,
    ⟨"principal_first_name", some Json.null⟩,
    ⟨"principal_last_name", some Json.null⟩,
    ⟨"principal_position", some Json.null⟩,
    ⟨"state_province", some Json.null⟩,
    ⟨"submitted_name", some Json.null⟩,
    ⟨"submitted_on", some Json.null⟩,
    ⟨"submitted_position", some Json.null⟩
  ]
  frozen := true
  eq := true
  postInit := PostInit.none

/-- Dataclass descriptor translated from `PlantCode` in src/vpic/models.py. -/
def PlantCode : DataclassSpec where
  fields := [
    ⟨"dot_code", none⟩,
    ⟨"name", none⟩,
    ⟨"address", some Json.null⟩,
    ⟨"city", some Json.null⟩,
    ⟨"country", some Json.null⟩,
    ⟨"old_dot_code", some Json.null⟩,
    ⟨"postal_code", some Json.null⟩,
    ⟨"state_province", some Json.null⟩,
    ⟨"status", some Json.null⟩
  ]
  frozen := true
  eq := true
  postInit := PostInit.none

/-- Dataclass descriptor translated from `Value` in src/vpic/models.py. -/
def Value : DataclassSpec where
  fields := [
    ⟨"element_name", none⟩,
    ⟨"id", none⟩,
    ⟨"name", none⟩
  ]
  frozen := true
  eq := true
  postInit := PostInit.none

/-- Dataclass descriptor translated from `Variable` in src/vpic/models.py. -/
def Variable : DataclassSpec where
  fields := [
    ⟨"id", none⟩,
    ⟨"name", none⟩,
    ⟨"group_name", some Json.null⟩,
    ⟨"data_type", none⟩,
    ⟨"description", none⟩
  ]
  frozen := true
  eq := true
  postInit := PostInit.none

/-- The 148 field names of `Vehicle` in src/vpic/models.py, in order;
all are plain `str` fields with no default. -/
def vehicleFieldNames : List String :=
  ["abs", "active_safety_sys_note", "adaptive_cruise_control", "adaptive_driving_beam", "adaptive_headlights", "additional_error_text",
   "air_bag_loc_curtain", "air_bag_loc_front", "air_bag_loc_knee", "air_bag_loc_seat_cushion", "air_bag_loc_side", "auto_reverse_system",
   "automatic_pedestrian_alerting_sound", "axle_configuration", "axles", "base_price", "battery_a", "battery_a_to",
   "battery_cells", "battery_info", "battery_kwh", "battery_kwh_to", "battery_modules", "battery_packs",
   "battery_type", "battery_v", "battery_v_to", "bed_length_in", "bed_type", "blind_spot_intervention",
   "blind_spot_mon", "body_cab_type", "body_class", "brake_system_desc", "brake_system_type", "bus_floor_config_type",
   "bus_length", "bus_type", "can_aacn", "cib", "cash_for_clunkers", "charger_level",
   "charger_power_kw", "cooling_type", "curb_weight_lb", "custom_motorcycle_type", "daytime_running_light", "destination_market",
   "displacement_cc", "displacement_ci", "displacement_l", "doors", "drive_type", "driver_assist",
   "dynamic_brake_support", "edr", "esc", "ev_drive_unit", "electrification_level", "engine_configuration",
   "engine_cycles", "engine_cylinders", "engine_hp", "engine_hp_to", "engine_kw", "engine_manufacturer",
   "engine_model", "entertainment_system", "error_code", "error_text", "forward_collision_warning", "fuel_injection_type",
   "fuel_type_primary", "fuel_type_secondary", "gcwr_from", "gcwr_to", "gvwr_from", "gvwr_to",
   "keyless_ignition", "lane_centering_assistance", "lane_departure_warning", "lane_keep_system", "lower_beam_headlamp_light_source", "make",
   "make_id", "manufacturer", "manufacturer_id", "model", "model_id", "model_year",
   "motorcycle_chassis_type", "motorcycle_suspension_type", "ncsa_body_type", "ncsa_make", "ncsa_map_exc_approved_by", "ncsa_map_exc_approved_on",
   "ncsa_mapping_exception", "ncsa_model", "ncsa_note", "note", "other_bus_info", "other_engine_info",
   "other_motorcycle_info", "other_restraint_system_info", "other_trailer_info", "park_assist", "pedestrian_automatic_emergency_braking", "plant_city",
   "plant_company_name", "plant_country", "plant_state", "possible_values", "pretensioner", "rear_automatic_emergency_braking",
   "rear_cross_traffic_alert", "rear_visibility_system", "sae_automation_level", "sae_automation_level_to", "seat_belts_all", "seat_rows",
   "seats", "semiautomatic_headlamp_beam_switching", "series", "series2", "steering_location", "suggested_vin",
   "tpms", "top_speed_mph", "track_width", "traction_control", "trailer_body_type", "trailer_length",
   "trailer_type", "transmission_speeds", "transmission_style", "trim", "trim2", "turbo",
   "vin", "valve_train_design", "vehicle_type", "wheel_base_long", "wheel_base_short", "wheel_base_type",
   "wheel_size_front", "wheel_size_rear", "wheels", "windows"]

/-- Dataclass descriptor translated from `Vehicle` in src/vpic/models.py. -/
def Vehicle : DataclassSpec where
  fields := vehicleFieldNames.map (fun n => ⟨n, none⟩)
  frozen := true
  eq := true
  postInit := PostInit.none
/-- Dataclass descriptor translated from `WorldManufacturerIndex` in
src/vpic/models.py (lines 277-300): note `frozen=False`, and the
`__post_init__`. -/
def WorldManufacturerIndex : DataclassSpec where
  fields := [
    ⟨"created_on", none⟩,
    ⟨"date_available_to_public", none⟩,
    ⟨"manufacturer", some Json.null⟩,
    ⟨"name", some Json.null⟩,
    ⟨"id", some Json.null⟩,
    ⟨"updated_on", some Json.null⟩,
    ⟨"vehicle_type", none⟩,
    ⟨"wmi", some Json.null⟩,
    ⟨"common_name", some (Json.str "")⟩,
    ⟨"country", some Json.null⟩,
    ⟨"make", some (Json.str "")⟩,
    ⟨"manufacturer_id", some Json.null⟩,
    ⟨"parent_company_name", some (Json.str "")⟩,
    ⟨"url", some (Json.str "")⟩
  ]
  frozen := false
  eq := true
  postInit := PostInit.wmi

end Models

/-- Every record type of src/vpic/models.py, i.e. every record type the
Typed Mapper can produce.  (`Vehicle` is listed field-for-field below.) -/
def allRecordSpecs : List DataclassSpec :=
  [Models.Document, Models.Make, Models.Model, Models.Manufacturer,
   Models.ManufacturerType, Models.VehicleType, Models.ManufacturerDetail,
   Models.PlantCode, Models.Value, Models.Variable, Models.Vehicle,
   Models.WorldManufacturerIndex]

/- ------------------------------------------------------------------
   Domain predicate for `snake_case` (used to state claim C10)
   ------------------------------------------------------------------ -/

mutual

/-- The inputs on which the `snake_case` loop completes: every key is
non-empty and every element of a list value is itself a dict whose
entries satisfy the same condition (values that are not lists are not
recursed into). -/
def snakeDomEntries : List (String × Json) → Bool
  | [] => true
  | (k, v) :: rest => decide (k ≠ "") && snakeDomValue v && snakeDomEntries rest

/-- Condition on one dict value: lists must contain only good dicts. -/
def snakeDomValue : Json → Bool
  | .arr xs => snakeDomList xs
  | _ => true

/-- Condition on the elements of a list value. -/
def snakeDomList : List Json → Bool
  | [] => true
  | v :: xs => snakeDomElem v && snakeDomList xs

/-- A list element must be a dict with good entries. -/
def snakeDomElem : Json → Bool
  | .obj kvs => snakeDomEntries kvs
  | _ => false

end

/- ------------------------------------------------------------------
   Helper lemmas
   ------------------------------------------------------------------ -/

theorem subUpperRuns_no_upper (l : List Char) (h : ∀ c ∈ l, c.isUpper = false) :
    subUpperRuns l = l := by
  induction l with
  | nil => rfl
  | cons c cs ih =>
    have hc := h c (List.mem_cons_self c cs)
    simp only [subUpperRuns, hc, Bool.false_eq_true, if_false]
    exact congrArg (c :: ·) (ih fun x hx => h x (List.mem_cons_of_mem c hx))

theorem pyLowerChar_eq_of_not_upper (c : Char) (h : c.isUpper = false) :
    pyLowerChar c = c := by
  simp [pyLowerChar, h]

theorem pyReplaceAux_not_contains (old new : List Char) (fuel : Nat) :
    ∀ s : List Char, containsSub old s = false → pyReplaceAux old new fuel s = s := by
  induction fuel with
  | zero => intro s _; rfl
  | succ n ih =>
    intro s hs
    cases s with
    | nil =>
      simp only [containsSub, Bool.or_eq_false_iff] at hs
      simp [pyReplaceAux, hs]
    | cons c cs =>
      simp only [containsSub, Bool.or_eq_false_iff] at hs
      have hnp : old.isPrefixOf (c :: cs) = false := hs.1
      have hcond : ¬(old ≠ [] ∧ old.isPrefixOf (c :: cs) = true ∧ c :: cs ≠ []) := by
        intro hcon; rw [hnp] at hcon; exact Bool.false_ne_true hcon.2.1
      rw [pyReplaceAux, if_neg hcond]
      exact congrArg (c :: ·) (ih cs hs.2)

theorem map_pyLower_no_upper (l : List Char) (h : ∀ c ∈ l, c.isUpper = false) :
    l.map pyLowerChar = l := by
  induction l with
  | nil => rfl
  | cons c cs ih =>
    have hc := pyLowerChar_eq_of_not_upper c (h c (List.mem_cons_self c cs))
    simp only [List.map_cons, hc]
    exact congrArg (c :: ·) (ih fun x hx => h x (List.mem_cons_of_mem c hx))

theorem applyCompound_no_token (k : List Char)
    (h : ∀ p ∈ WORDS_TO_SEPARATE, containsSub p.1.data k = false) :
    applyCompound k = k := by
  unfold applyCompound
  have hfind : WORDS_TO_SEPARATE.find? (fun p => containsSub p.1.data k) = none := by
    apply List.find?_eq_none.2
    intro p hp
    simp [h p hp]
  rw [hfind]

theorem snakeKeyE_eq_self (k : String)
    (hne : k.data ≠ [])
    (hchars : ∀ c ∈ k.data, c.isUpper = false)
    (hhead : k.data.head? ≠ some '_')
    (hdd : containsSub ['_', '_'] k.data = false)
    (htok : ∀ p ∈ WORDS_TO_SEPARATE, containsSub p.1.data k.data = false) :
    snakeKeyE k = .ok k := by
  have h1 : subUpperRuns k.data = k.data := subUpperRuns_no_upper _ hchars
  have h3 : pyReplace ['_', '_'] ['_'] ((subUpperRuns k.data).map pyLowerChar) = k.data := by
    rw [h1, map_pyLower_no_upper _ hchars]
    exact pyReplaceAux_not_contains _ _ _ _ hdd
  unfold snakeKeyE
  rw [h3]
  obtain ⟨c, cs, hk⟩ : ∃ c cs, k.data = c :: cs := by
    cases hd : k.data with
    | nil => exact absurd hd hne
    | cons c cs => exact ⟨c, cs, rfl⟩
  have hc : c ≠ '_' := by
    intro hcu
    exact hhead (by rw [hk, hcu]; rfl)
  rw [hk]
  simp only [hc, if_false, ← hk]
  rw [applyCompound_no_token _ htok]

/- ------------------------------------------------------------------
   Claim C4 — idempotence of the Case Transformer
   ------------------------------------------------------------------ -/

/-- C4 (counterexample): the Case Transformer is not idempotent.  The
key `ncsa_body_type` is exactly what a first application of
`snake_case` produces from the upstream key `NCSABodyType` — it is
all-lowercase with underscore separators — yet a second application
rewrites it to `ncsa__body_type`, because the compound-word loop
replaces the contained token `ncsa` with `ncsa_` again. -/
theorem snake_case_not_idempotent :
    snake_case [("NCSABodyType", Json.null)] = .ok [("ncsa_body_type", Json.null)] ∧
    snake_case [("ncsa_body_type", Json.null)] = .ok [("ncsa__body_type", Json.null)] ∧
    "ncsa__body_type" ≠ "ncsa_body_type" :=
  ⟨rfl, rfl, by decide⟩

/-- C4 (amended): the Case Transformer is idempotent on every
already-transformed key that contains no compound token of the
override table.  For an ASCII key with no uppercase letter, not
starting with an underscore, with no doubled underscore, and
containing none of the eight `_WORDS_TO_SEPARATE` tokens as a
substring, `snake_case` maps the key (and any non-list value under
it) to itself. -/
theorem snake_case_idempotent_without_override_token (k : String) (v : Json)
    (hne : k.data ≠ [])
    (hascii : ∀ c ∈ k.data, c.toNat < 128)
    (hchars : ∀ c ∈ k.data, c.isUpper = false)
    (hhead : k.data.head? ≠ some '_')
    (hdd : containsSub ['_', '_'] k.data = false)
    (htok : ∀ p ∈ WORDS_TO_SEPARATE, containsSub p.1.data k.data = false)
    (hv : ∀ xs, v ≠ Json.arr xs) :
    snake_case [(k, v)] = .ok [(k, v)] := by
  have hkey := snakeKeyE_eq_self k hne hchars hhead hdd htok
  cases v with
  | arr xs => exact absurd rfl (hv xs)
  | str s => simp [snake_case, snakeEntries, hkey, pyDictInsert]
  | num n => simp [snake_case, snakeEntries, hkey, pyDictInsert]
  | bool b => simp [snake_case, snakeEntries, hkey, pyDictInsert]
  | null => simp [snake_case, snakeEntries, hkey, pyDictInsert]
  | obj kvs => simp [snake_case, snakeEntries, hkey, pyDictInsert]

/-- C4 (witness): the amended idempotence theorem applied to the
already-transformed key `model_year`. -/
theorem snake_case_idempotent_witness :
    snake_case [("model_year", Json.str "2021")] = .ok [("model_year", Json.str "2021")] :=
  snake_case_idempotent_without_override_token "model_year" (Json.str "2021")
    (by decide) (by decide) (by decide) (by decide) (by decide) (by decide)
    (fun xs h => Json.noConfusion h)

/- ------------------------------------------------------------------
   Claim C7 — segmentation rule and override table of the Case
   Transformer
   ------------------------------------------------------------------ -/

/-- C7: the Case Transformer treats a maximal uppercase run as one
token boundary and then applies the fixed override table:
`ModelYear` gives exactly `model_year`, and each canonical key covered
by the `_WORDS_TO_SEPARATE` override table gives exactly the
documented snake-styled key — in particular `GVWRFrom` gives
`gvwr_from` (and not `g_v_w_r_from`). -/
theorem snake_case_segmentation_and_overrides :
    snake_case [("ModelYear", Json.null)] = .ok [("model_year", Json.null)] ∧
    snake_case [("GVWRFrom", Json.null)] = .ok [("gvwr_from", Json.null)] ∧
    snake_case [("GVWRTo", Json.null)] = .ok [("gvwr_to", Json.null)] ∧
    snake_case [("GCWRFrom", Json.null)] = .ok [("gcwr_from", Json.null)] ∧
    snake_case [("GCWRTo", Json.null)] = .ok [("gcwr_to", Json.null)] ∧
    snake_case [("NCSABodyType", Json.null)] = .ok [("ncsa_body_type", Json.null)] ∧
    snake_case [("EVDriveUnit", Json.null)] = .ok [("ev_drive_unit", Json.null)] ∧
    snake_case [("SAEAutomationLevel", Json.null)] = .ok [("sae_automation_level", Json.null)] ∧
    snake_case [("DOTCode", Json.null)] = .ok [("dot_code", Json.null)] ∧
    "gvwr_from" ≠ "g_v_w_r_from" :=
  ⟨rfl, rfl, rfl, rfl, rfl, rfl, rfl, rfl, rfl, by decide⟩

/- ------------------------------------------------------------------
   Claim C6 — unification of upstream key variants
   ------------------------------------------------------------------ -/

/-- C6 (counterexample): the upstream variant `Manufacturer_Name` is
not in the `_STANDARD_VARIABLE_NAMES` table, so the Name Canonicalizer
passes it through unchanged instead of mapping it to `Manufacturer`
as the claim states. -/
theorem standardize_manufacturer_name_not_unified :
    standardize (.obj [("Manufacturer_Name", Json.str "HONDA")]) =
      .obj [("Manufacturer_Name", Json.str "HONDA")] ∧
    rename "Manufacturer_Name" ≠ "Manufacturer" :=
  ⟨rfl, by decide⟩

/-- C6 (amended): the Name Canonicalizer maps each of `Mfr_Name`,
`MfrName` and `ManufacturerName` to the identical canonical key
`Manufacturer`, and each of `Mfr_ID` and `MfrId` to `ManufacturerId`;
the variant `Manufacturer_Name` named by the claim is absent from the
lookup table and passes through unchanged. -/
theorem standardize_variant_unification (v : Json) :
    standardize (.obj [("Mfr_Name", v)]) = .obj [("Manufacturer", standardize v)] ∧
    standardize (.obj [("MfrName", v)]) = .obj [("Manufacturer", standardize v)] ∧
    standardize (.obj [("ManufacturerName", v)]) = .obj [("Manufacturer", standardize v)] ∧
    standardize (.obj [("Mfr_ID", v)]) = .obj [("ManufacturerId", standardize v)] ∧
    standardize (.obj [("MfrId", v)]) = .obj [("ManufacturerId", standardize v)] ∧
    standardize (.obj [("Manufacturer_Name", v)]) = .obj [("Manufacturer_Name", standardize v)] := by
  refine ⟨?_, ?_, ?_, ?_, ?_, ?_⟩ <;> rfl

/- ------------------------------------------------------------------
   Claim C5 — structural behaviour of the Name Canonicalizer
   ------------------------------------------------------------------ -/

theorem standardizeList_eq_map (xs : List Json) :
    standardizeList xs = xs.map standardize := by
  induction xs with
  | nil => rfl
  | cons x xs ih => simp only [standardizeList, List.map_cons]; rw [ih]

theorem pyDictInsert_of_not_mem (acc : List (String × Json)) (k : String) (v : Json)
    (h : k ∉ acc.map Prod.fst) : pyDictInsert acc k v = acc ++ [(k, v)] := by
  induction acc with
  | nil => rfl
  | cons p rest ih =>
    obtain ⟨k', v'⟩ := p
    simp only [List.map_cons, List.mem_cons] at h
    push_neg at h
    simp only [pyDictInsert, List.cons_append]
    rw [if_neg (fun hk => h.1 hk.symm), ih h.2]

theorem standardizeObj_eq_map (kvs : List (String × Json)) :
    ∀ acc : List (String × Json),
      (kvs.map fun p => rename p.1).Nodup →
      (∀ p ∈ kvs, rename p.1 ∉ acc.map Prod.fst) →
      standardizeObj kvs acc = acc ++ kvs.map fun p => (rename p.1, standardize p.2) := by
  induction kvs with
  | nil => intro acc _ _; simp [standardizeObj]
  | cons p rest ih =>
    intro acc hnd hdisj
    obtain ⟨k, v⟩ := p
    simp only [standardizeObj]
    rw [pyDictInsert_of_not_mem _ _ _ (hdisj (k, v) (List.mem_cons_self _ _))]
    simp only [List.map_cons] at hnd
    rw [ih (acc ++ [(rename k, standardize v)]) hnd.of_cons ?_]
    · simp
    · intro q hq
      simp only [List.map_append, List.mem_append, List.map_cons, List.map_nil,
        List.mem_singleton]
      rintro (hin | hk)
      · exact hdisj q (List.mem_cons_of_mem _ hq) hin
      · have : rename q.1 ∈ rest.map fun p => rename p.1 := List.mem_map_of_mem _ hq
        rw [hk] at this
        exact (List.nodup_cons.1 hnd).1 this

/-- C5: on every JSON value the Name Canonicalizer leaves non-container
leaves unchanged, maps lists element-wise preserving their relative
order, and — whenever the rewritten keys do not collide — rewrites
every key of a mapping through the lookup table (keys absent from the
table pass through unchanged, by definition of `rename`) while
recursing into the values, at every nesting depth. -/
theorem standardize_characterization :
    (∀ s, standardize (.str s) = .str s) ∧
    (∀ n, standardize (.num n) = .num n) ∧
    (∀ b, standardize (.bool b) = .bool b) ∧
    standardize .null = .null ∧
    (∀ xs, standardize (.arr xs) = .arr (xs.map standardize)) ∧
    (∀ kvs, (kvs.map fun p => rename p.1).Nodup →
      standardize (.obj kvs) = .obj (kvs.map fun p => (rename p.1, standardize p.2))) := by
  refine ⟨fun s => rfl, fun n => rfl, fun b => rfl, rfl, fun xs => ?_, fun kvs hnd => ?_⟩
  · simp only [standardize]
    rw [standardizeList_eq_map]
  · simp only [standardize]
    rw [standardizeObj_eq_map kvs [] hnd (by simp)]
    simp

/-- C5 (witness): the characterization applied to a concrete nested
response object. -/
theorem standardize_characterization_witness :
    standardize (.obj [("Mfr_ID", Json.num 988), ("Color", Json.str "red")]) =
      .obj [("ManufacturerId", Json.num 988), ("Color", Json.str "red")] := by
  have h := standardize_characterization.2.2.2.2.2
    [("Mfr_ID", Json.num 988), ("Color", Json.str "red")] (by decide)
  simpa using h

/- ------------------------------------------------------------------
   Claim C10 — the domain of `snake_case`
   ------------------------------------------------------------------ -/

theorem subUpperRuns_ne_nil (l : List Char) (h : l ≠ []) : subUpperRuns l ≠ [] := by
  cases l with
  | nil => exact absurd rfl h
  | cons c cs =>
    simp only [subUpperRuns]
    split <;> simp

theorem pyReplaceAux_succ (old new : List Char) (n : Nat) (s : List Char) :
    pyReplaceAux old new (n + 1) s =
      if old ≠ [] ∧ old.isPrefixOf s ∧ s ≠ [] then
        new ++ pyReplaceAux old new n (s.drop old.length)
      else
        match s with
        | [] => []
        | c :: cs => c :: pyReplaceAux old new n cs := rfl

theorem pyReplaceAux_ne_nil (old new : List Char) (hnew : new ≠ []) (fuel : Nat) :
    ∀ s : List Char, s ≠ [] → pyReplaceAux old new fuel s ≠ [] := by
  induction fuel with
  | zero => intro s hs; exact hs
  | succ n ih =>
    intro s hs
    rw [pyReplaceAux_succ]
    split
    · simp [hnew]
    · cases s with
      | nil => exact absurd rfl hs
      | cons c cs => simp

theorem snakeKeyE_ok_of_ne_empty (k : String) (h : k ≠ "") :
    ∃ s, snakeKeyE k = .ok s := by
  have hdata : k.data ≠ [] := by
    intro hd
    apply h
    cases k
    simp_all
  have h1 : (subUpperRuns k.data).map pyLowerChar ≠ [] := by
    simp only [ne_eq, List.map_eq_nil_iff]
    exact subUpperRuns_ne_nil _ hdata
  have h2 : pyReplace ['_', '_'] ['_'] ((subUpperRuns k.data).map pyLowerChar) ≠ [] :=
    pyReplaceAux_ne_nil _ _ (by simp) _ _ h1
  unfold snakeKeyE
  cases hrep : pyReplace ['_', '_'] ['_'] ((subUpperRuns k.data).map pyLowerChar) with
  | nil => exact absurd hrep h2
  | cons c cs => exact ⟨_, rfl⟩

theorem snakeKeyE_empty : snakeKeyE "" = .error .indexError := rfl

theorem snakeEntries_empty_key_indexError (kvs : List (String × Json)) :
    ∀ acc, (∃ v, ("", v) ∈ kvs) → (∀ p ∈ kvs, ∀ xs, p.2 ≠ Json.arr xs) →
      snakeEntries kvs acc = .error .indexError := by
  induction kvs with
  | nil => rintro acc ⟨v, hv⟩ _; cases hv
  | cons p rest ih =>
    rintro acc ⟨v0, hv0⟩ hnoarr
    obtain ⟨k, v⟩ := p
    have hvarr : ∀ xs, v ≠ Json.arr xs := hnoarr (k, v) (List.mem_cons_self _ _)
    by_cases hk : k = ""
    · subst hk
      cases v with
      | arr xs => exact absurd rfl (hvarr xs)
      | str s => simp [snakeEntries, snakeKeyE_empty]
      | num n => simp [snakeEntries, snakeKeyE_empty]
      | bool b => simp [snakeEntries, snakeKeyE_empty]
      | null => simp [snakeEntries, snakeKeyE_empty]
      | obj kvs' => simp [snakeEntries, snakeKeyE_empty]
    · obtain ⟨nk, hnk⟩ := snakeKeyE_ok_of_ne_empty k hk
      have hmem : ("", v0) ∈ rest := by
        rcases List.mem_cons.1 hv0 with heq | hmem
        · exact absurd (congrArg Prod.fst heq).symm hk
        · exact hmem
      have hrest := ih (pyDictInsert acc nk v) ⟨v0, hmem⟩
        (fun q hq => hnoarr q (List.mem_cons_of_mem _ hq))
      cases v with
      | arr xs => exact absurd rfl (hvarr xs)
      | str s => simpa [snakeEntries, hnk] using hrest
      | num n => simpa [snakeEntries, hnk] using hrest
      | bool b => simpa [snakeEntries, hnk] using hrest
      | null => simpa [snakeEntries, hnk] using hrest
      | obj kvs' => simpa [snakeEntries, hnk] using hrest

theorem snakeTotalAux :
    ∀ n : Nat,
      (∀ kvs : List (String × Json), sizeOf kvs ≤ n → snakeDomEntries kvs = true →
        ∀ acc, ∃ r, snakeEntries kvs acc = .ok r) ∧
      (∀ xs : List Json, sizeOf xs ≤ n → snakeDomList xs = true →
        ∃ r, snakeList xs = .ok r) := by
  intro n
  induction n using Nat.strong_induction_on with
  | _ n ih =>
    constructor
    · intro kvs hsize hdom acc
      cases kvs with
      | nil => exact ⟨acc, rfl⟩
      | cons p rest =>
        obtain ⟨k, v⟩ := p
        simp only [snakeDomEntries, Bool.and_eq_true, decide_eq_true_eq] at hdom
        obtain ⟨⟨hk, hv⟩, hrest⟩ := hdom
        obtain ⟨nk, hnk⟩ := snakeKeyE_ok_of_ne_empty k hk
        have hsz : sizeOf rest < n := by
          have : sizeOf rest < sizeOf ((k, v) :: rest) := by
            simp only [List.cons.sizeOf_spec, Prod.mk.sizeOf_spec]
            omega
          omega
        cases v with
        | arr xs =>
          have hxs : sizeOf xs < n := by
            have : sizeOf xs < sizeOf ((k, Json.arr xs) :: rest) := by
              simp only [List.cons.sizeOf_spec, Prod.mk.sizeOf_spec, Json.arr.sizeOf_spec]
              omega
            omega
          simp only [snakeDomValue] at hv
          obtain ⟨xs', hxs'⟩ := (ih (sizeOf xs) hxs).2 xs (Nat.le_refl _) hv
          obtain ⟨r, hr⟩ := ((ih (sizeOf rest) hsz).1 rest (Nat.le_refl _) hrest)
            (pyDictInsert acc nk (Json.arr xs'))
          exact ⟨r, by simp [snakeEntries, hnk, hxs', hr]⟩
        | str s =>
          obtain ⟨r, hr⟩ := ((ih (sizeOf rest) hsz).1 rest (Nat.le_refl _) hrest)
            (pyDictInsert acc nk (Json.str s))
          exact ⟨r, by simp [snakeEntries, hnk, hr]⟩
        | num m =>
          obtain ⟨r, hr⟩ := ((ih (sizeOf rest) hsz).1 rest (Nat.le_refl _) hrest)
            (pyDictInsert acc nk (Json.num m))
          exact ⟨r, by simp [snakeEntries, hnk, hr]⟩
        | bool b =>
          obtain ⟨r, hr⟩ := ((ih (sizeOf rest) hsz).1 rest (Nat.le_refl _) hrest)
            (pyDictInsert acc nk (Json.bool b))
          exact ⟨r, by simp [snakeEntries, hnk, hr]⟩
        | null =>
          obtain ⟨r, hr⟩ := ((ih (sizeOf rest) hsz).1 rest (Nat.le_refl _) hrest)
            (pyDictInsert acc nk Json.null)
          exact ⟨r, by simp [snakeEntries, hnk, hr]⟩
        | obj kvs' =>
          obtain ⟨r, hr⟩ := ((ih (sizeOf rest) hsz).1 rest (Nat.le_refl _) hrest)
            (pyDictInsert acc nk (Json.obj kvs'))
          exact ⟨r, by simp [snakeEntries, hnk, hr]⟩
    · intro xs hsize hdom
      cases xs with
      | nil => exact ⟨[], rfl⟩
      | cons v rest =>
        simp only [snakeDomList, Bool.and_eq_true] at hdom
        obtain ⟨hv, hrest⟩ := hdom
        cases v with
        | obj kvs =>
          simp only [snakeDomElem] at hv
          have hkv : sizeOf kvs < n := by
            have : sizeOf kvs < sizeOf (Json.obj kvs :: rest) := by
              simp only [List.cons.sizeOf_spec, Json.obj.sizeOf_spec]
              omega
            omega
          have hrsz : sizeOf rest < n := by
            have : sizeOf rest < sizeOf (Json.obj kvs :: rest) := by
              simp only [List.cons.sizeOf_spec]
              omega
            omega
          obtain ⟨kvs', hkvs'⟩ := (ih (sizeOf kvs) hkv).1 kvs (Nat.le_refl _) hv []
          obtain ⟨rest', hrest'⟩ := (ih (sizeOf rest) hrsz).2 rest (Nat.le_refl _) hrest
          exact ⟨Json.obj kvs' :: rest', by simp [snakeList, snakeValue, hkvs', hrest']⟩
        | str s => simp [snakeDomElem] at hv
        | num m => simp [snakeDomElem] at hv
        | bool b => simp [snakeDomElem] at hv
        | null => simp [snakeDomElem] at hv
        | arr ys => simp [snakeDomElem] at hv

theorem snakeFailAux :
    ∀ n : Nat,
      (∀ kvs : List (String × Json), sizeOf kvs ≤ n → snakeDomEntries kvs = false →
        ∀ acc, ∃ e, snakeEntries kvs acc = .error e) ∧
      (∀ xs : List Json, sizeOf xs ≤ n → snakeDomList xs = false →
        ∃ e, snakeList xs = .error e) := by
  intro n
  induction n using Nat.strong_induction_on with
  | _ n ih =>
    constructor
    · intro kvs hsize hdom acc
      cases kvs with
      | nil => simp [snakeDomEntries] at hdom
      | cons p rest =>
        obtain ⟨k, v⟩ := p
        have hsz : sizeOf rest < n := by
          have : sizeOf rest < sizeOf ((k, v) :: rest) := by
            simp only [List.cons.sizeOf_spec, Prod.mk.sizeOf_spec]
            omega
          omega
        by_cases hk : k = ""
        · subst hk
          refine ⟨.indexError, ?_⟩
          cases v <;> simp [snakeEntries, snakeKeyE_empty]
        · obtain ⟨nk, hnk⟩ := snakeKeyE_ok_of_ne_empty k hk
          simp only [snakeDomEntries, Bool.and_eq_false_iff, decide_eq_false_iff_not,
            not_not] at hdom
          rcases hdom with (hk' | hv) | hrest
          · exact absurd hk' hk
          · cases v with
            | arr xs =>
              simp only [snakeDomValue] at hv
              have hxs : sizeOf xs < n := by
                have : sizeOf xs < sizeOf ((k, Json.arr xs) :: rest) := by
                  simp only [List.cons.sizeOf_spec, Prod.mk.sizeOf_spec,
                    Json.arr.sizeOf_spec]
                  omega
                omega
              obtain ⟨e, he⟩ := (ih (sizeOf xs) hxs).2 xs (Nat.le_refl _) hv
              exact ⟨e, by simp [snakeEntries, hnk, he]⟩
            | str s => simp [snakeDomValue] at hv
            | num m => simp [snakeDomValue] at hv
            | bool b => simp [snakeDomValue] at hv
            | null => simp [snakeDomValue] at hv
            | obj kvs' => simp [snakeDomValue] at hv
          · cases v with
            | arr xs =>
              cases hdl : snakeDomList xs with
              | false =>
                have hxs : sizeOf xs < n := by
                  have : sizeOf xs < sizeOf ((k, Json.arr xs) :: rest) := by
                    simp only [List.cons.sizeOf_spec, Prod.mk.sizeOf_spec,
                      Json.arr.sizeOf_spec]
                    omega
                  omega
                obtain ⟨e, he⟩ := (ih (sizeOf xs) hxs).2 xs (Nat.le_refl _) hdl
                exact ⟨e, by simp [snakeEntries, hnk, he]⟩
              | true =>
                obtain ⟨xs', hxs'⟩ := (snakeTotalAux (sizeOf xs)).2 xs (Nat.le_refl _) hdl
                obtain ⟨e, he⟩ := ((ih (sizeOf rest) hsz).1 rest (Nat.le_refl _) hrest)
                  (pyDictInsert acc nk (Json.arr xs'))
                exact ⟨e, by simp [snakeEntries, hnk, hxs', he]⟩
            | str s =>
              obtain ⟨e, he⟩ := ((ih (sizeOf rest) hsz).1 rest (Nat.le_refl _) hrest)
                (pyDictInsert acc nk (Json.str s))
              exact ⟨e, by simp [snakeEntries, hnk, he]⟩
            | num m =>
              obtain ⟨e, he⟩ := ((ih (sizeOf rest) hsz).1 rest (Nat.le_refl _) hrest)
                (pyDictInsert acc nk (Json.num m))
              exact ⟨e, by simp [snakeEntries, hnk, he]⟩
            | bool b =>
              obtain ⟨e, he⟩ := ((ih (sizeOf rest) hsz).1 rest (Nat.le_refl _) hrest)
                (pyDictInsert acc nk (Json.bool b))
              exact ⟨e, by simp [snakeEntries, hnk, he]⟩
            | null =>
              obtain ⟨e, he⟩ := ((ih (sizeOf rest) hsz).1 rest (Nat.le_refl _) hrest)
                (pyDictInsert acc nk Json.null)
              exact ⟨e, by simp [snakeEntries, hnk, he]⟩
            | obj kvs' =>
              obtain ⟨e, he⟩ := ((ih (sizeOf rest) hsz).1 rest (Nat.le_refl _) hrest)
                (pyDictInsert acc nk (Json.obj kvs'))
              exact ⟨e, by simp [snakeEntries, hnk, he]⟩
    · intro xs hsize hdom
      cases xs with
      | nil => simp [snakeDomList] at hdom
      | cons v rest =>
        have hrsz : sizeOf rest < n := by
          have : sizeOf rest < sizeOf (v :: rest) := by
            simp only [List.cons.sizeOf_spec]
            omega
          omega
        simp only [snakeDomList, Bool.and_eq_false_iff] at hdom
        cases v with
        | obj kvs =>
          have hkv : sizeOf kvs < n := by
            have : sizeOf kvs < sizeOf (Json.obj kvs :: rest) := by
              simp only [List.cons.sizeOf_spec, Json.obj.sizeOf_spec]
              omega
            omega
          rcases hdom with hv | hrest
          · simp only [snakeDomElem] at hv
            obtain ⟨e, he⟩ := (ih (sizeOf kvs) hkv).1 kvs (Nat.le_refl _) hv []
            exact ⟨e, by simp [snakeList, snakeValue, he]⟩
          · cases hde : snakeDomEntries kvs with
            | false =>
              obtain ⟨e, he⟩ := (ih (sizeOf kvs) hkv).1 kvs (Nat.le_refl _) hde []
              exact ⟨e, by simp [snakeList, snakeValue, he]⟩
            | true =>
              obtain ⟨kvs', hkvs'⟩ := (snakeTotalAux (sizeOf kvs)).1 kvs (Nat.le_refl _) hde []
              obtain ⟨e, he⟩ := (ih (sizeOf rest) hrsz).2 rest (Nat.le_refl _) hrest
              exact ⟨e, by simp [snakeList, snakeValue, hkvs', he]⟩
        | str s => exact ⟨.attributeError, by simp [snakeList, snakeValue]⟩
        | num m => exact ⟨.attributeError, by simp [snakeList, snakeValue]⟩
        | bool b => exact ⟨.attributeError, by simp [snakeList, snakeValue]⟩
        | null => exact ⟨.attributeError, by simp [snakeList, snakeValue]⟩
        | arr ys => exact ⟨.attributeError, by simp [snakeList, snakeValue]⟩

/-- C10 (counterexample): `snake_case` can raise on a mapping whose
keys are all non-empty — the entry `("a", [1])` has a non-empty key but
its list value contains a non-dict element, so the inner
`snake_case(v)` call raises `AttributeError` at `v.items()`, not the
claimed guaranteed return (nor an `IndexError`). -/
theorem snake_case_raises_beyond_empty_keys :
    snake_case [("a", Json.arr [Json.num 1])] = .error .attributeError ∧
    "a" ≠ "" :=
  ⟨rfl, by decide⟩

/-- C10 (amended): `snake_case` raises `IndexError` on every mapping
that contains the empty string as a key and whose values are all
non-lists; and in general it returns a mapping without raising if and
only if every key is non-empty and, recursively, every element of
every list value is a dict with the same property (`snakeDomEntries`)
— outside that domain some exception is raised.  (On a mapping with
an empty-string key, an earlier list value containing a non-dict can
raise `AttributeError` first, so the non-list condition is needed for
the `IndexError` half.) -/
theorem snake_case_domain :
    (∀ kvs : List (String × Json), (∃ v, ("", v) ∈ kvs) →
      (∀ p ∈ kvs, ∀ xs, p.2 ≠ Json.arr xs) →
      snake_case kvs = .error .indexError) ∧
    (∀ kvs : List (String × Json),
      (∃ r, snake_case kvs = .ok r) ↔ snakeDomEntries kvs = true) := by
  constructor
  · intro kvs hmem hnoarr
    exact snakeEntries_empty_key_indexError kvs [] hmem hnoarr
  · intro kvs
    constructor
    · rintro ⟨r, hr⟩
      cases hdom : snakeDomEntries kvs with
      | true => rfl
      | false =>
        obtain ⟨e, he⟩ := (snakeFailAux (sizeOf kvs)).1 kvs (Nat.le_refl _) hdom []
        rw [snake_case, he] at hr
        cases hr
    · intro hdom
      exact (snakeTotalAux (sizeOf kvs)).1 kvs (Nat.le_refl _) hdom []

/-- C10 (witness): the `IndexError` half and both directions of the
domain characterization applied to concrete mappings. -/
theorem snake_case_domain_witness :
    snake_case [("ModelYear", Json.str "2021"), ("", Json.null)] = .error .indexError ∧
    (∃ r, snake_case [("ModelYear", Json.str "2021")] = .ok r) ∧
    snakeDomEntries [("ModelYear", Json.str "2021")] = true := by
  refine ⟨?_, ?_, ?_⟩
  · exact snake_case_domain.1 [("ModelYear", Json.str "2021"), ("", Json.null)]
      ⟨Json.null, by simp⟩
      (by
        intro p hp xs hpx
        rcases List.mem_cons.1 hp with rfl | hp2
        · exact Json.noConfusion hpx
        · rcases List.mem_cons.1 hp2 with rfl | hp3
          · exact Json.noConfusion hpx
          · cases hp3)
  · exact (snake_case_domain.2 [("ModelYear", Json.str "2021")]).mpr (by decide)
  · exact (snake_case_domain.2 [("ModelYear", Json.str "2021")]).mp
      ⟨[("model_year", Json.str "2021")], rfl⟩

/- ------------------------------------------------------------------
   Claim C1 — behaviour of the Error Classifier on non-JSON bodies
   ------------------------------------------------------------------ -/

/-- C1 (counterexample): for a failed response whose body is not
JSON-parseable but whose `content-type` header is absent (so the code
defaults it to `application/json`), `handle_error_response` calls
`resp.json()` and the `JSONDecodeError` escapes unhandled: no defined
error kind with empty message/detail is raised. -/
theorem handleError_malformed_body_unhandled :
    handle_error_response ⟨400, none, none⟩ = .unhandled .jsonDecodeError :=
  rfl

/-- C1 (amended): the empty-defaults path is gated on the
`content-type` header, not on the body being JSON-parseable.  When the
header is present and differs from `application/json`, the classifier
never parses the body, defaults message and detail to the empty
string, and raises exactly the dispatch-table kind; when the header is
absent or equals `application/json` and the body is not
JSON-parseable, the secondary `JSONDecodeError` escapes. -/
theorem handleError_header_gated_defaults :
    (∀ (resp : PyResponse) (ct : String), resp.content_type = some ct →
      ct ≠ "application/json" →
      handle_error_response resp =
        .raised (httpErrorKind resp.status_code) (Json.str "") (Json.str "")) ∧
    (∀ resp : PyResponse, resp.content_type.getD "application/json" = "application/json" →
      resp.json_body = none →
      handle_error_response resp = .unhandled .jsonDecodeError) := by
  constructor
  · intro resp ct hct hne
    unfold handle_error_response
    rw [hct]
    simp only [Option.getD_some, if_neg hne]
    rfl
  · intro resp hct hbody
    unfold handle_error_response
    rw [if_pos hct, hbody]

/-- C1 (witness): both halves of the amended theorem at concrete
failed responses. -/
theorem handleError_header_gated_defaults_witness :
    handle_error_response ⟨503, some "text/html", none⟩ =
      .raised .serviceUnavailable (Json.str "") (Json.str "") ∧
    handle_error_response ⟨500, none, none⟩ = .unhandled .jsonDecodeError := by
  constructor
  · have h := handleError_header_gated_defaults.1 ⟨503, some "text/html", none⟩
      "text/html" rfl (by decide)
    simpa using h
  · exact handleError_header_gated_defaults.2 ⟨500, none, none⟩ rfl rfl

/- ------------------------------------------------------------------
   Claim C2 — the dispatch table of the Error Classifier
   ------------------------------------------------------------------ -/

/-- C2 (counterexample): the `InvalidParameters` refinement is not
restricted to status 400 — a 404 response whose `messageDetail` starts
with "The parameters dictionary" raises `InvalidParameters`, not
`MethodNotFound` as the claim ("status 404 raises MethodNotFound
regardless of body") states. -/
theorem handleError_404_params_detail_overrides :
    handle_error_response
      ⟨404, none, some (.obj
        [("message", Json.str "The request is invalid."),
         ("messageDetail", Json.str "The parameters dictionary contains a null entry")])⟩ =
      .raised .invalidParameters (Json.str "The request is invalid.")
        (Json.str "The parameters dictionary contains a null entry") ∧
    ErrKind.invalidParameters ≠ ErrKind.methodNotFound :=
  ⟨rfl, by decide⟩

/-- C2 (amended): for every failed response with a JSON-object body
whose extracted detail is a string, the raised kind is
`InvalidParameters` whenever the detail begins with "The parameters
dictionary" — at any status, not only 400 — and otherwise follows the
status dispatch table: 400 InvalidRequest, 404 MethodNotFound,
429 TooManyRequests, 500 InternalError, 503 ServiceUnavailable, and
the base `VPICError` for any other status. -/
theorem handleError_dispatch_table (status : Nat) (kvs : List (String × Json)) (d : String)
    (hd : pyLookup kvs "messageDetail" = some (Json.str d)) :
    handle_error_response ⟨status, none, some (.obj kvs)⟩ =
      .raised
        (if strStartsWith d "The parameters dictionary" then ErrKind.invalidParameters
         else httpErrorKind status)
        ((pyLookup kvs "message").getD .null) (.str d) ∧
    httpErrorKind 400 = .invalidRequest ∧
    httpErrorKind 404 = .methodNotFound ∧
    httpErrorKind 429 = .tooManyRequests ∧
    httpErrorKind 500 = .internalError ∧
    httpErrorKind 503 = .serviceUnavailable ∧
    (∀ s, s ≠ 400 → s ≠ 404 → s ≠ 429 → s ≠ 500 → s ≠ 503 →
      httpErrorKind s = .vpicError) := by
  refine ⟨?_, rfl, rfl, rfl, rfl, rfl, ?_⟩
  · unfold handle_error_response
    simp only [Option.getD_none, if_pos rfl, hd]
    unfold classifyRaise
    rfl
  · intro s h400 h404 h429 h500 h503
    unfold httpErrorKind
    rw [if_neg h400, if_neg h404, if_neg h429, if_neg h500, if_neg h503]

/-- C2 (witness): the dispatch theorem applied to the documented
400-with-parameters-dictionary scenario. -/
theorem handleError_dispatch_table_witness :
    handle_error_response
      ⟨400, none, some (.obj
        [("message", Json.str "The request is invalid."),
         ("messageDetail", Json.str "The parameters dictionary contains a null entry")])⟩ =
      .raised .invalidParameters (Json.str "The request is invalid.")
        (Json.str "The parameters dictionary contains a null entry") := by
  have h := (handleError_dispatch_table 400
    [("message", Json.str "The request is invalid."),
     ("messageDetail", Json.str "The parameters dictionary contains a null entry")]
    "The parameters dictionary contains a null entry" rfl).1
  simpa using h

/- ------------------------------------------------------------------
   Typed Mapper lemmas
   ------------------------------------------------------------------ -/

theorem loadFields_keys (fs : List FieldSpec) :
    ∀ data r, loadFields data fs = .ok r → r.map Prod.fst = fs.map FieldSpec.name := by
  induction fs with
  | nil =>
    intro data r h
    simp only [loadFields] at h
    cases h
    rfl
  | cons f fs ih =>
    intro data r h
    simp only [loadFields] at h
    cases hf : loadField data f with
    | error e => rw [hf] at h; cases h
    | ok kv =>
      rw [hf] at h
      cases hrest : loadFields data fs with
      | error e => rw [hrest] at h; cases h
      | ok rest =>
        rw [hrest] at h
        cases h
        have hkv : kv.1 = f.name := by
          unfold loadField at hf
          cases hlk : pyLookup data f.name with
          | some v => rw [hlk] at hf; cases hf; rfl
          | none =>
            rw [hlk] at hf
            cases hd : f.default with
            | some d => rw [hd] at hf; cases hf; rfl
            | none => rw [hd] at hf; cases hf
        simp [hkv, ih data rest hrest]

theorem declared_eq_false_iff (spec : DataclassSpec) (k : String) :
    declared spec k = false ↔ k ∉ spec.fields.map FieldSpec.name := by
  unfold declared
  rw [← Bool.not_eq_true]
  simp only [List.any_eq_true, decide_eq_true_eq, List.mem_map]

theorem pyDictInsert_keys (l : List (String × Json)) (k : String) (v : Json) :
    ∀ x ∈ (pyDictInsert l k v).map Prod.fst, x ∈ l.map Prod.fst ∨ x = k := by
  induction l with
  | nil =>
    intro x hx
    simp only [pyDictInsert, List.map_cons, List.map_nil, List.mem_singleton] at hx
    exact Or.inr hx
  | cons p rest ih =>
    obtain ⟨k', v'⟩ := p
    intro x hx
    simp only [pyDictInsert] at hx
    by_cases hk : k' = k
    · rw [if_pos hk] at hx
      simp only [List.map_cons, List.mem_cons] at hx ⊢
      rcases hx with rfl | hx
      · exact Or.inl (Or.inl rfl)
      · exact Or.inl (Or.inr hx)
    · rw [if_neg hk] at hx
      simp only [List.map_cons, List.mem_cons] at hx ⊢
      rcases hx with rfl | hx
      · exact Or.inl (Or.inl rfl)
      · rcases ih x hx with h | h
        · exact Or.inl (Or.inr h)
        · exact Or.inr h

theorem pyDictRemove_keys (l : List (String × Json)) (k : String) :
    ∀ x ∈ (pyDictRemove l k).map Prod.fst, x ∈ l.map Prod.fst := by
  induction l with
  | nil => intro x hx; exact hx
  | cons p rest ih =>
    obtain ⟨k', v'⟩ := p
    intro x hx
    simp only [pyDictRemove] at hx
    by_cases hk : k' = k
    · rw [if_pos hk] at hx
      exact List.mem_cons_of_mem _ hx
    · rw [if_neg hk] at hx
      simp only [List.map_cons, List.mem_cons] at hx ⊢
      rcases hx with rfl | hx
      · exact Or.inl rfl
      · exact Or.inr (ih x hx)

theorem postRename_keys (l : List (String × Json)) (src dst : String) :
    ∀ x ∈ (postRename l src dst).map Prod.fst, x ∈ l.map Prod.fst ∨ x = dst := by
  intro x hx
  unfold postRename at hx
  have hx2 := pyDictRemove_keys _ _ x hx
  cases hlk : pyLookup l src with
  | none => simp only [hlk] at hx2; exact Or.inl hx2
  | some v =>
    simp only [hlk] at hx2
    by_cases hnull : v.isNull = true
    · rw [if_pos hnull] at hx2; exact Or.inl hx2
    · rw [if_neg hnull] at hx2
      exact pyDictInsert_keys l dst v x hx2

theorem runPostInit_keys (pi : PostInit) (l : List (String × Json)) :
    ∀ x ∈ (runPostInit pi l).map Prod.fst,
      x ∈ l.map Prod.fst ∨ x = "vehicle_type" ∨ x = "manufacturer_id" ∨ x = "manufacturer" := by
  intro x hx
  cases pi with
  | none => exact Or.inl hx
  | vehicleType =>
    rcases postRename_keys l "name" "vehicle_type" x hx with h | h
    · exact Or.inl h
    · exact Or.inr (Or.inl h)
  | wmi =>
    rcases postRename_keys _ "name" "manufacturer" x hx with h | h
    · rcases postRename_keys l "id" "manufacturer_id" x h with h2 | h2
      · exact Or.inl h2
      · exact Or.inr (Or.inr (Or.inl h2))
    · exact Or.inr (Or.inr (Or.inr h))

theorem schemaLoad_raise_unknown (spec : DataclassSpec) (data : List (String × Json))
    (k : String) (hk : k ∈ data.map Prod.fst) (hdecl : declared spec k = false) :
    schemaLoad spec .raise data = .error .validationError := by
  unfold schemaLoad
  rw [if_pos]
  refine ⟨rfl, ?_⟩
  obtain ⟨p, hp, hfst⟩ := List.mem_map.1 hk
  exact List.any_eq_true.2 ⟨p, hp, by rw [hfst, hdecl]; rfl⟩

theorem schemaLoad_exclude_no_unknown (spec : DataclassSpec) (data : List (String × Json))
    (k : String) (r : List (String × Json))
    (hdecl : declared spec k = false)
    (hvt : declared spec "vehicle_type" = true ∨ spec.postInit ≠ PostInit.vehicleType)
    (hmi : declared spec "manufacturer_id" = true ∨ spec.postInit ≠ PostInit.wmi)
    (hm : declared spec "manufacturer" = true ∨ spec.postInit ≠ PostInit.wmi)
    (hok : schemaLoad spec .exclude data = .ok r) :
    k ∉ r.map Prod.fst := by
  unfold schemaLoad at hok
  rw [if_neg (by rintro ⟨h, -⟩; cases h)] at hok
  cases hlf : loadFields data spec.fields with
  | error e => rw [hlf] at hok; cases hok
  | ok flds =>
    rw [hlf] at hok
    cases hok
    intro hkr
    have hnames := loadFields_keys spec.fields data flds hlf
    have hnot : k ∉ flds.map Prod.fst := by
      rw [hnames]
      exact (declared_eq_false_iff spec k).1 hdecl
    cases hpi : spec.postInit with
    | none =>
      rw [hpi] at hkr
      simp only [runPostInit] at hkr
      exact hnot hkr
    | vehicleType =>
      rw [hpi] at hkr
      simp only [runPostInit] at hkr
      rcases postRename_keys flds "name" "vehicle_type" k hkr with h | h
      · exact hnot h
      · subst h
        rcases hvt with hvt | hvt
        · rw [hvt] at hdecl; cases hdecl
        · exact hvt hpi
    | wmi =>
      rw [hpi] at hkr
      simp only [runPostInit] at hkr
      rcases postRename_keys _ "name" "manufacturer" k hkr with h | h
      · rcases postRename_keys flds "id" "manufacturer_id" k h with h2 | h2
        · exact hnot h2
        · subst h2
          rcases hmi with hmi | hmi
          · rw [hmi] at hdecl; cases hdecl
          · exact hmi hpi
      · subst h
        rcases hm with hm | hm
        · rw [hm] at hdecl; cases hdecl
        · exact hm hpi

theorem pyLookup_eq_none_of_not_mem (l : List (String × Json)) (k : String)
    (h : k ∉ l.map Prod.fst) : pyLookup l k = none := by
  induction l with
  | nil => rfl
  | cons p rest ih =>
    obtain ⟨k', v'⟩ := p
    simp only [List.map_cons, List.mem_cons] at h
    push_neg at h
    simp only [pyLookup]
    rw [if_neg (fun hk => h.1 hk.symm)]
    exact ih h.2

theorem pyLookup_append_of_not_mem (pre l : List (String × Json)) (k : String)
    (h : k ∉ pre.map Prod.fst) : pyLookup (pre ++ l) k = pyLookup l k := by
  induction pre with
  | nil => rfl
  | cons p rest ih =>
    obtain ⟨k', v'⟩ := p
    simp only [List.map_cons, List.mem_cons] at h
    push_neg at h
    simp only [List.cons_append, pyLookup]
    rw [if_neg (fun hk => h.1 hk.symm)]
    exact ih h.2

theorem pyLookup_mem (l : List (String × Json)) (k : String) (v : Json)
    (h : pyLookup l k = some v) : ∃ q ∈ l, q.2 = v := by
  induction l with
  | nil => cases h
  | cons p rest ih =>
    obtain ⟨k', v'⟩ := p
    simp only [pyLookup] at h
    by_cases hk : k' = k
    · rw [if_pos hk] at h
      injection h with h
      exact ⟨(k', v'), List.mem_cons_self _ _, h⟩
    · rw [if_neg hk] at h
      obtain ⟨q, hq, hqv⟩ := ih h
      exact ⟨q, List.mem_cons_of_mem _ hq, hqv⟩

theorem pyLookup_self_of_nodup (l : List (String × Json))
    (hnd : (l.map Prod.fst).Nodup) :
    ∀ p ∈ l, pyLookup l p.1 = some p.2 := by
  induction l with
  | nil => intro p hp; cases hp
  | cons q rest ih =>
    obtain ⟨k', v'⟩ := q
    intro p hp
    simp only [List.map_cons, List.nodup_cons] at hnd
    rcases List.mem_cons.1 hp with rfl | hp2
    · simp [pyLookup]
    · simp only [pyLookup]
      rw [if_neg, ih hnd.2 p hp2]
      intro hk
      exact hnd.1 (hk ▸ List.mem_map_of_mem Prod.fst hp2)

theorem fieldTuple_aligned (fs : List FieldSpec) :
    ∀ (pre flds : List (String × Json)),
      flds.map Prod.fst = fs.map FieldSpec.name →
      (fs.map FieldSpec.name).Nodup →
      (∀ f ∈ fs, f.name ∉ pre.map Prod.fst) →
      fieldTuple fs (pre ++ flds) = .ok (flds.map Prod.snd) := by
  induction fs with
  | nil =>
    intro pre flds halign _ _
    have h0 : flds.map Prod.fst = [] := by simpa using halign
    have : flds = [] := List.map_eq_nil_iff.1 h0
    subst this
    rfl
  | cons f fs ih =>
    intro pre flds halign hnd hpre
    cases flds with
    | nil => simp at halign
    | cons q flds' =>
      obtain ⟨k0, v0⟩ := q
      simp only [List.map_cons, List.cons.injEq] at halign
      obtain ⟨hk0, halign'⟩ := halign
      subst hk0
      simp only [List.map_cons, List.nodup_cons] at hnd
      have hlk : pyLookup (pre ++ (f.name, v0) :: flds') f.name = some v0 := by
        rw [pyLookup_append_of_not_mem pre _ _ (hpre f (List.mem_cons_self _ _))]
        simp [pyLookup]
      have hrec : fieldTuple fs (pre ++ [(f.name, v0)] ++ flds') = .ok (flds'.map Prod.snd) := by
        refine ih (pre ++ [(f.name, v0)]) flds' halign' hnd.2 ?_
        intro g hg
        simp only [List.map_append, List.mem_append, List.map_cons, List.map_nil,
          List.mem_singleton]
        rintro (hin | hgn)
        · exact hpre g (List.mem_cons_of_mem _ hg) hin
        · exact hnd.1 (hgn ▸ List.mem_map_of_mem FieldSpec.name hg)
      rw [List.append_assoc, List.singleton_append] at hrec
      simp only [fieldTuple, hlk, hrec, List.map_cons]

theorem loadFields_values (fs : List FieldSpec) :
    ∀ data flds, loadFields data fs = .ok flds →
      ∀ p ∈ flds, (∃ q ∈ data, q.2 = p.2) ∨ ∃ f ∈ fs, f.default = some p.2 := by
  induction fs with
  | nil =>
    intro data flds h p hp
    simp only [loadFields] at h
    cases h
    cases hp
  | cons f fs ih =>
    intro data flds h p hp
    simp only [loadFields] at h
    cases hf : loadField data f with
    | error e => rw [hf] at h; cases h
    | ok kv =>
      rw [hf] at h
      cases hrest : loadFields data fs with
      | error e => rw [hrest] at h; cases h
      | ok rest =>
        rw [hrest] at h
        cases h
        rcases List.mem_cons.1 hp with rfl | hp2
        · unfold loadField at hf
          cases hlk : pyLookup data f.name with
          | some v =>
            rw [hlk] at hf
            injection hf with hf
            obtain ⟨q, hq, hqv⟩ := pyLookup_mem data f.name v hlk
            exact Or.inl ⟨q, hq, by rw [hqv, ← hf]⟩
          | none =>
            rw [hlk] at hf
            cases hd : f.default with
            | some d =>
              rw [hd] at hf
              injection hf with hf
              exact Or.inr ⟨f, List.mem_cons_self _ _, by rw [hd, ← hf]⟩
            | none => rw [hd] at hf; cases hf
        · rcases ih data rest hrest p hp2 with h | ⟨g, hg, hgd⟩
          · exact Or.inl h
          · exact Or.inr ⟨g, List.mem_cons_of_mem _ hg, hgd⟩

theorem wfList_of_forall (xs : List Json) (h : ∀ x ∈ xs, wfJson x = true) :
    wfList xs = true := by
  induction xs with
  | nil => rfl
  | cons x xs ih =>
    simp only [wfList, Bool.and_eq_true]
    exact ⟨h x (List.mem_cons_self _ _), ih fun y hy => h y (List.mem_cons_of_mem _ hy)⟩

theorem jsonEqRefl_aux :
    ∀ n : Nat,
      (∀ a : Json, sizeOf a ≤ n → wfJson a = true → jsonEq a a = true) ∧
      (∀ xs : List Json, sizeOf xs ≤ n → wfList xs = true → jsonListEq xs xs = true) ∧
      (∀ kvs ys : List (String × Json), sizeOf kvs ≤ n → wfEntries kvs = true →
        (∀ p ∈ kvs, pyLookup ys p.1 = some p.2) → jsonObjEq kvs ys = true) := by
  intro n
  induction n using Nat.strong_induction_on with
  | _ n ih =>
    refine ⟨?_, ?_, ?_⟩
    · intro a hsize hwf
      cases a with
      | str s => simp [jsonEq]
      | num m => simp [jsonEq]
      | bool b => simp [jsonEq]
      | null => rfl
      | arr xs =>
        have hxs : sizeOf xs < n := by
          have : sizeOf xs < sizeOf (Json.arr xs) := by
            simp only [Json.arr.sizeOf_spec]; omega
          omega
        simp only [wfJson] at hwf
        simp only [jsonEq]
        exact (ih (sizeOf xs) hxs).2.1 xs (Nat.le_refl _) hwf
      | obj kvs =>
        have hkv : sizeOf kvs < n := by
          have : sizeOf kvs < sizeOf (Json.obj kvs) := by
            simp only [Json.obj.sizeOf_spec]; omega
          omega
        simp only [wfJson, Bool.and_eq_true, decide_eq_true_eq] at hwf
        simp only [jsonEq, Bool.and_eq_true, beq_self_eq_true, true_and]
        exact (ih (sizeOf kvs) hkv).2.2 kvs kvs (Nat.le_refl _) hwf.2
          (pyLookup_self_of_nodup kvs hwf.1)
    · intro xs hsize hwf
      cases xs with
      | nil => rfl
      | cons x xs' =>
        simp only [wfList, Bool.and_eq_true] at hwf
        have hx : sizeOf x < n := by
          have : sizeOf x < sizeOf (x :: xs') := by
            simp only [List.cons.sizeOf_spec]; omega
          omega
        have hxs : sizeOf xs' < n := by
          have : sizeOf xs' < sizeOf (x :: xs') := by
            simp only [List.cons.sizeOf_spec]; omega
          omega
        simp only [jsonListEq, Bool.and_eq_true]
        exact ⟨(ih (sizeOf x) hx).1 x (Nat.le_refl _) hwf.1,
          (ih (sizeOf xs') hxs).2.1 xs' (Nat.le_refl _) hwf.2⟩
    · intro kvs ys hsize hwf hlk
      cases kvs with
      | nil => rfl
      | cons p rest =>
        obtain ⟨k, v⟩ := p
        simp only [wfEntries, Bool.and_eq_true] at hwf
        have hv : sizeOf v < n := by
          have : sizeOf v < sizeOf ((k, v) :: rest) := by
            simp only [List.cons.sizeOf_spec, Prod.mk.sizeOf_spec]; omega
          omega
        have hr : sizeOf rest < n := by
          have : sizeOf rest < sizeOf ((k, v) :: rest) := by
            simp only [List.cons.sizeOf_spec, Prod.mk.sizeOf_spec]; omega
          omega
        have hk := hlk (k, v) (List.mem_cons_self _ _)
        simp only [jsonObjEq, hk, Bool.and_eq_true]
        exact ⟨(ih (sizeOf v) hv).1 v (Nat.le_refl _) hwf.1,
          (ih (sizeOf rest) hr).2.2 rest ys (Nat.le_refl _) hwf.2
            (fun q hq => hlk q (List.mem_cons_of_mem _ hq))⟩

theorem jsonListEq_refl (xs : List Json) (h : ∀ x ∈ xs, wfJson x = true) :
    jsonListEq xs xs = true :=
  (jsonEqRefl_aux (sizeOf xs)).2.1 xs (Nat.le_refl _) (wfList_of_forall xs h)

theorem loadField_defaulted (data : List (String × Json)) (nm : String) (d : Json) :
    loadField data ⟨nm, some d⟩ = .ok (nm, (pyLookup data nm).getD d) := by
  unfold loadField
  cases pyLookup data nm <;> rfl

theorem loadField_present (data : List (String × Json)) (nm : String) (v : Json)
    (dflt : Option Json) (h : pyLookup data nm = some v) :
    loadField data ⟨nm, dflt⟩ = .ok (nm, v) := by
  unfold loadField
  rw [h]

theorem loadField_required_missing (data : List (String × Json)) (nm : String)
    (h : pyLookup data nm = none) :
    loadField data ⟨nm, none⟩ = .error .validationError := by
  unfold loadField
  rw [h]

/- ------------------------------------------------------------------
   Claim C3 — immutability and equality of the record types
   ------------------------------------------------------------------ -/

theorem schemaLoad_eq_refl (spec : DataclassSpec)
    (hnodup : (spec.fields.map FieldSpec.name).Nodup)
    (hdef : spec.fields.all
      (fun f => match f.default with | some d => wfJson d | Option.none => true) = true)
    (hnone : spec.postInit = PostInit.none)
    (u : Unknown) (data r : List (String × Json))
    (hwf : ∀ p ∈ data, wfJson p.2 = true)
    (hok : schemaLoad spec u data = .ok r) :
    dataclassEq spec r r = .ok true := by
  unfold schemaLoad at hok
  split at hok
  · cases hok
  · cases hlf : loadFields data spec.fields with
    | error e => rw [hlf] at hok; cases hok
    | ok flds =>
      rw [hlf, hnone] at hok
      simp only [runPostInit] at hok
      have hfr : flds = r := by injection hok
      subst hfr
      have hkeys := loadFields_keys spec.fields data flds hlf
      have hft : fieldTuple spec.fields flds = .ok (flds.map Prod.snd) := by
        have h := fieldTuple_aligned spec.fields [] flds hkeys hnodup (by simp)
        simpa using h
      have hvals : ∀ x ∈ flds.map Prod.snd, wfJson x = true := by
        intro x hx
        obtain ⟨p, hp, rfl⟩ := List.mem_map.1 hx
        rcases loadFields_values spec.fields data flds hlf p hp with ⟨q, hq, hqe⟩ | ⟨f, hf, hfd⟩
        · rw [← hqe]; exact hwf q hq
        · have hone := List.all_eq_true.1 hdef f hf
          rw [hfd] at hone
          exact hone
      simp only [dataclassEq, hft]
      rw [jsonListEq_refl _ hvals]

theorem vehicleType_eq_raises (u : Unknown) (data r r' : List (String × Json))
    (hok : schemaLoad Models.VehicleType u data = .ok r) :
    dataclassEq Models.VehicleType r r' = .error .attributeError := by
  unfold schemaLoad at hok
  split at hok
  · cases hok
  · have hlf : loadFields data Models.VehicleType.fields = .ok
        [("name", (pyLookup data "name").getD Json.null),
         ("vehicle_type", (pyLookup data "vehicle_type").getD Json.null),
         ("vehicle_type_id", (pyLookup data "vehicle_type_id").getD Json.null),
         ("make", (pyLookup data "make").getD Json.null),
         ("make_id", (pyLookup data "make_id").getD Json.null),
         ("gvwr_from", (pyLookup data "gvwr_from").getD Json.null),
         ("gvwr_to", (pyLookup data "gvwr_to").getD Json.null),
         ("is_primary", (pyLookup data "is_primary").getD Json.null)] := by
      simp only [Models.VehicleType, loadFields, loadField_defaulted]
    rw [hlf] at hok
    cases hok
    by_cases hn : ((pyLookup data "name").getD Json.null).isNull = true
    · simp [dataclassEq, fieldTuple, Models.VehicleType, runPostInit, postRename,
        pyLookup, pyDictInsert, pyDictRemove, hn]
    · simp [dataclassEq, fieldTuple, Models.VehicleType, runPostInit, postRename,
        pyLookup, pyDictInsert, pyDictRemove, hn]

theorem wmi_eq_raises (u : Unknown) (data r r' : List (String × Json))
    (hok : schemaLoad Models.WorldManufacturerIndex u data = .ok r) :
    dataclassEq Models.WorldManufacturerIndex r r' = .error .attributeError := by
  unfold schemaLoad at hok
  split at hok
  · cases hok
  · cases hc1 : pyLookup data "created_on" with
    | none =>
      have h : loadFields data Models.WorldManufacturerIndex.fields =
          .error .validationError := by
        simp [Models.WorldManufacturerIndex, loadFields,
          loadField_required_missing data "created_on" hc1]
      rw [h] at hok
      cases hok
    | some c1 =>
      cases hc2 : pyLookup data "date_available_to_public" with
      | none =>
        have h : loadFields data Models.WorldManufacturerIndex.fields =
            .error .validationError := by
          simp [Models.WorldManufacturerIndex, loadFields,
            loadField_present data "created_on" c1 none hc1,
            loadField_required_missing data "date_available_to_public" hc2]
        rw [h] at hok
        cases hok
      | some c2 =>
        cases hc3 : pyLookup data "vehicle_type" with
        | none =>
          have h : loadFields data Models.WorldManufacturerIndex.fields =
              .error .validationError := by
            simp [Models.WorldManufacturerIndex, loadFields, loadField_defaulted,
              loadField_present data "created_on" c1 none hc1,
              loadField_present data "date_available_to_public" c2 none hc2,
              loadField_required_missing data "vehicle_type" hc3]
          rw [h] at hok
          cases hok
        | some c3 =>
          have hlf : loadFields data Models.WorldManufacturerIndex.fields = .ok
              [("created_on", c1), ("date_available_to_public", c2),
               ("manufacturer", (pyLookup data "manufacturer").getD Json.null),
               ("name", (pyLookup data "name").getD Json.null),
               ("id", (pyLookup data "id").getD Json.null),
               ("updated_on", (pyLookup data "updated_on").getD Json.null),
               ("vehicle_type", c3),
               ("wmi", (pyLookup data "wmi").getD Json.null),
               ("common_name", (pyLookup data "common_name").getD (Json.str "")),
               ("country", (pyLookup data "country").getD Json.null),
               ("make", (pyLookup data "make").getD (Json.str "")),
               ("manufacturer_id", (pyLookup data "manufacturer_id").getD Json.null),
               ("parent_company_name",
                 (pyLookup data "parent_company_name").getD (Json.str "")),
               ("url", (pyLookup data "url").getD (Json.str ""))] := by
            simp only [Models.WorldManufacturerIndex, loadFields, loadField_defaulted,
              loadField_present data "created_on" c1 none hc1,
              loadField_present data "date_available_to_public" c2 none hc2,
              loadField_present data "vehicle_type" c3 none hc3]
          rw [hlf] at hok
          cases hok
          by_cases hv : ((pyLookup data "id").getD Json.null).isNull = true
          · by_cases hw : ((pyLookup data "name").getD Json.null).isNull = true
            · simp [dataclassEq, fieldTuple, Models.WorldManufacturerIndex, runPostInit,
                postRename, pyLookup, pyDictInsert, pyDictRemove, hv, hw]
            · simp [dataclassEq, fieldTuple, Models.WorldManufacturerIndex, runPostInit,
                postRename, pyLookup, pyDictInsert, pyDictRemove, hv, hw]
          · by_cases hw : ((pyLookup data "name").getD Json.null).isNull = true
            · simp [dataclassEq, fieldTuple, Models.WorldManufacturerIndex, runPostInit,
                postRename, pyLookup, pyDictInsert, pyDictRemove, hv, hw]
            · simp [dataclassEq, fieldTuple, Models.WorldManufacturerIndex, runPostInit,
                postRename, pyLookup, pyDictInsert, pyDictRemove, hv, hw]

/-- C3 (counterexample): `VehicleType` and `WorldManufacturerIndex`
are declared `frozen=False` (src/vpic/models.py lines 50 and 277), so
their instances are not immutable: `setattr` on a constructed
`VehicleType` succeeds and changes the field, instead of raising
`FrozenInstanceError` as it does for the frozen record types.  Their
equality is not structural either: the generated `__eq__` reads the
deleted `name` attribute, so comparing a constructed `VehicleType`
record with an equal copy of itself raises `AttributeError` (the last
conjunct compares the record that loading `{"name": "Truck"}`
produces). -/
theorem vehicleType_and_wmi_mutable :
    Models.VehicleType.frozen = false ∧
    Models.WorldManufacturerIndex.frozen = false ∧
    dataclassSetattr Models.VehicleType [("vehicle_type", Json.str "Truck")]
      "vehicle_type" (Json.str "Car") = .ok [("vehicle_type", Json.str "Car")] ∧
    Json.str "Car" ≠ Json.str "Truck" ∧
    dataclassEq Models.VehicleType
      [("vehicle_type", Json.str "Truck"), ("vehicle_type_id", Json.null),
       ("make", Json.null), ("make_id", Json.null), ("gvwr_from", Json.null),
       ("gvwr_to", Json.null), ("is_primary", Json.null)]
      [("vehicle_type", Json.str "Truck"), ("vehicle_type_id", Json.null),
       ("make", Json.null), ("make_id", Json.null), ("gvwr_from", Json.null),
       ("gvwr_to", Json.null), ("is_primary", Json.null)] = .error .attributeError := by
  refine ⟨rfl, rfl, rfl, ?_, rfl⟩
  intro h
  injection h with h'
  exact absurd h' (by decide)

/-- C3 (amended): every record type declares `eq=True`; for the
record types without a field-deleting `__post_init__`, equality is
structural — two records constructed from the same well-formed input
compare equal, field-value based — and `setattr` on any frozen record
type raises `FrozenInstanceError`.  The two `frozen=False` types,
`VehicleType` and `WorldManufacturerIndex`, are mutable, and
comparing any record they construct raises `AttributeError`, because
the generated `__eq__` reads the `name`/`id` attributes their
`__post_init__` deleted. -/
theorem recordTypes_frozen_and_structural_eq :
    (∀ spec ∈ allRecordSpecs, spec.eq = true) ∧
    (∀ spec ∈ allRecordSpecs,
      spec.frozen = true ∨ spec = Models.VehicleType ∨ spec = Models.WorldManufacturerIndex) ∧
    (∀ (spec : DataclassSpec) (inst : List (String × Json)) (k : String) (v : Json),
      spec.frozen = true →
      dataclassSetattr spec inst k v = .error .frozenInstanceError) ∧
    (∀ spec ∈ allRecordSpecs, spec.postInit = PostInit.none →
      ∀ (u : Unknown) (data r1 r2 : List (String × Json)),
        (∀ p ∈ data, wfJson p.2 = true) →
        schemaLoad spec u data = .ok r1 → schemaLoad spec u data = .ok r2 →
        dataclassEq spec r1 r2 = .ok true) ∧
    (∀ (u : Unknown) (data r r' : List (String × Json)),
      schemaLoad Models.VehicleType u data = .ok r →
      dataclassEq Models.VehicleType r r' = .error .attributeError) ∧
    (∀ (u : Unknown) (data r r' : List (String × Json)),
      schemaLoad Models.WorldManufacturerIndex u data = .ok r →
      dataclassEq Models.WorldManufacturerIndex r r' = .error .attributeError) := by
  refine ⟨?_, ?_, ?_, ?_, vehicleType_eq_raises, wmi_eq_raises⟩
  · intro spec hspec
    simp only [allRecordSpecs, List.mem_cons, List.not_mem_nil, or_false] at hspec
    rcases hspec with rfl | rfl | rfl | rfl | rfl | rfl | rfl | rfl | rfl | rfl | rfl | rfl <;> rfl
  · intro spec hspec
    simp only [allRecordSpecs, List.mem_cons, List.not_mem_nil, or_false] at hspec
    rcases hspec with rfl | rfl | rfl | rfl | rfl | rfl | rfl | rfl | rfl | rfl | rfl | rfl
    · exact Or.inl rfl
    · exact Or.inl rfl
    · exact Or.inl rfl
    · exact Or.inl rfl
    · exact Or.inl rfl
    · exact Or.inr (Or.inl rfl)
    · exact Or.inl rfl
    · exact Or.inl rfl
    · exact Or.inl rfl
    · exact Or.inl rfl
    · exact Or.inl rfl
    · exact Or.inr (Or.inr rfl)
  · intro spec inst k v hfrozen
    unfold dataclassSetattr
    rw [if_pos hfrozen]
  · have hside : ∀ spec ∈ allRecordSpecs,
        (spec.fields.map FieldSpec.name).Nodup ∧
        spec.fields.all
          (fun f => match f.default with
            | some d => wfJson d
            | Option.none => true) = true := by
      set_option maxRecDepth 16384 in decide
    intro spec hspec hnone u data r1 r2 hwf h1 h2
    have hr : r1 = r2 := by
      rw [h1] at h2
      injection h2
    subst hr
    exact schemaLoad_eq_refl spec (hside spec hspec).1 (hside spec hspec).2 hnone
      u data r1 hwf h1

/-- C3 (witness): the amended theorem at concrete inputs — `setattr`
on a frozen `Manufacturer` raises, two `Make` records loaded from the
same input compare equal, and a constructed `VehicleType` record
raises on comparison. -/
theorem recordTypes_frozen_witness :
    dataclassSetattr Models.Manufacturer
      [("manufacturer_id", Json.num 988)] "manufacturer_id" (Json.num 7) =
      .error .frozenInstanceError ∧
    dataclassEq Models.Make
      [("make_id", Json.num 441), ("make", Json.str "TESLA"),
       ("manufacturer_id", Json.null), ("manufacturer", Json.null),
       ("vehicle_type_id", Json.null), ("vehicle_type", Json.null)]
      [("make_id", Json.num 441), ("make", Json.str "TESLA"),
       ("manufacturer_id", Json.null), ("manufacturer", Json.null),
       ("vehicle_type_id", Json.null), ("vehicle_type", Json.null)] = .ok true ∧
    dataclassEq Models.VehicleType
      [("vehicle_type", Json.str "Truck"), ("vehicle_type_id", Json.null),
       ("make", Json.null), ("make_id", Json.null), ("gvwr_from", Json.null),
       ("gvwr_to", Json.null), ("is_primary", Json.null)]
      [("vehicle_type", Json.str "Truck"), ("vehicle_type_id", Json.null),
       ("make", Json.null), ("make_id", Json.null), ("gvwr_from", Json.null),
       ("gvwr_to", Json.null), ("is_primary", Json.null)] = .error .attributeError := by
  have hmem : Models.Make ∈ allRecordSpecs := by
    unfold allRecordSpecs
    exact List.mem_cons_of_mem _ (List.mem_cons_self _ _)
  refine ⟨?_, ?_, ?_⟩
  · exact recordTypes_frozen_and_structural_eq.2.2.1 Models.Manufacturer
      [("manufacturer_id", Json.num 988)] "manufacturer_id" (Json.num 7) rfl
  · exact recordTypes_frozen_and_structural_eq.2.2.2.1 Models.Make hmem rfl .exclude
      [("make_id", Json.num 441), ("make", Json.str "TESLA")] _ _
      (by decide) rfl rfl
  · exact recordTypes_frozen_and_structural_eq.2.2.2.2.1 .exclude
      [("name", Json.str "Truck")] _ _ rfl

/- ------------------------------------------------------------------
   Claim C8 — the unknown-field policy
   ------------------------------------------------------------------ -/

/-- C8: the unknown-field policy is a per-client setting with exactly
two modes (`EXCLUDE` and `RAISE`; anything else is rejected with
`ValueError` by `TypedClient.__init__`), and it governs typed mapping
for every record type: whenever the input contains a key not declared
on the record type, loading under `RAISE` fails with the schema
error, while under `EXCLUDE` any successfully constructed record does
not contain that key. -/
theorem unknown_policy_two_modes :
    (typedClientInitMeta "EXCLUDE" = .ok .exclude ∧
     typedClientInitMeta "RAISE" = .ok .raise ∧
     ∀ s, s ≠ "EXCLUDE" → s ≠ "RAISE" → typedClientInitMeta s = .error .valueError) ∧
    (∀ spec ∈ allRecordSpecs, ∀ (data : List (String × Json)) (k : String),
      k ∈ data.map Prod.fst → declared spec k = false →
      schemaLoad spec .raise data = .error .validationError ∧
      ∀ r, schemaLoad spec .exclude data = .ok r → k ∉ r.map Prod.fst) := by
  constructor
  · refine ⟨rfl, rfl, fun s h1 h2 => ?_⟩
    unfold typedClientInitMeta
    rw [if_neg h1, if_neg h2]
  · have hall : ∀ spec ∈ allRecordSpecs,
        (declared spec "vehicle_type" = true ∨ spec.postInit ≠ PostInit.vehicleType) ∧
        (declared spec "manufacturer_id" = true ∨ spec.postInit ≠ PostInit.wmi) ∧
        (declared spec "manufacturer" = true ∨ spec.postInit ≠ PostInit.wmi) := by
      decide
    intro spec hspec data k hk hdecl
    obtain ⟨hvt, hmi, hm⟩ := hall spec hspec
    exact ⟨schemaLoad_raise_unknown spec data k hk hdecl,
      fun r hok => schemaLoad_exclude_no_unknown spec data k r hdecl hvt hmi hm hok⟩

/-- C8 (witness): the policy theorem applied to `Make` with an input
carrying the undeclared key `extra`: `RAISE` fails, and the record
`EXCLUDE` constructs does not contain `extra`. -/
theorem unknown_policy_two_modes_witness :
    schemaLoad Models.Make .raise
      [("make_id", Json.num 441), ("make", Json.str "TESLA"), ("extra", Json.str "x")] =
      .error .validationError ∧
    ∀ r, schemaLoad Models.Make .exclude
      [("make_id", Json.num 441), ("make", Json.str "TESLA"), ("extra", Json.str "x")] =
      .ok r → "extra" ∉ r.map Prod.fst := by
  have hmem : Models.Make ∈ allRecordSpecs := by
    unfold allRecordSpecs
    exact List.mem_cons_of_mem _ (List.mem_cons_self _ _)
  exact unknown_policy_two_modes.2 Models.Make hmem
    [("make_id", Json.num 441), ("make", Json.str "TESLA"), ("extra", Json.str "x")]
    "extra" (by decide) (by decide)

/- ------------------------------------------------------------------
   Claim C9 — the per-type field renames at construction time
   ------------------------------------------------------------------ -/

/-- C9: loading a `VehicleType` input that has a `name` key and no
`vehicle_type` key populates the record's `vehicle_type` field with
the value supplied under `name`, and the constructed record retains no
`name` field; the analogous renames `id`→`manufacturer_id` and
`name`→`manufacturer` hold for `WorldManufacturerIndex` (whose other
required fields must be present for the load to succeed). -/
theorem typedMapper_post_init_renames :
    (∀ (u : Unknown) (data : List (String × Json)) (v : Json),
      pyLookup data "name" = some v →
      pyLookup data "vehicle_type" = none →
      (u = Unknown.raise → ∀ p ∈ data, declared Models.VehicleType p.1 = true) →
      ∃ r, schemaLoad Models.VehicleType u data = .ok r ∧
        pyLookup r "vehicle_type" = some v ∧ pyLookup r "name" = none) ∧
    (∀ (u : Unknown) (data : List (String × Json)) (v w c1 c2 c3 : Json),
      pyLookup data "id" = some v →
      pyLookup data "manufacturer_id" = none →
      pyLookup data "name" = some w →
      pyLookup data "manufacturer" = none →
      pyLookup data "created_on" = some c1 →
      pyLookup data "date_available_to_public" = some c2 →
      pyLookup data "vehicle_type" = some c3 →
      (u = Unknown.raise → ∀ p ∈ data, declared Models.WorldManufacturerIndex p.1 = true) →
      ∃ r, schemaLoad Models.WorldManufacturerIndex u data = .ok r ∧
        pyLookup r "manufacturer_id" = some v ∧ pyLookup r "id" = none ∧
        pyLookup r "manufacturer" = some w ∧ pyLookup r "name" = none) := by
  constructor
  · intro u data v hname hvt hpol
    have hguard :
        ¬(u = Unknown.raise ∧
          data.any (fun p => !(declared Models.VehicleType p.1)) = true) := by
      rintro ⟨rfl, hany⟩
      obtain ⟨p, hp, hnp⟩ := List.any_eq_true.1 hany
      rw [hpol rfl p hp] at hnp
      cases hnp
    unfold schemaLoad
    rw [if_neg hguard]
    have hlf : loadFields data Models.VehicleType.fields = .ok
        [("name", v), ("vehicle_type", Json.null),
         ("vehicle_type_id", (pyLookup data "vehicle_type_id").getD Json.null),
         ("make", (pyLookup data "make").getD Json.null),
         ("make_id", (pyLookup data "make_id").getD Json.null),
         ("gvwr_from", (pyLookup data "gvwr_from").getD Json.null),
         ("gvwr_to", (pyLookup data "gvwr_to").getD Json.null),
         ("is_primary", (pyLookup data "is_primary").getD Json.null)] := by
      simp only [Models.VehicleType, loadFields, loadField_defaulted, hname, hvt,
        Option.getD_some, Option.getD_none]
    simp only [hlf]
    by_cases hvnull : v.isNull = true
    · have hv : v = Json.null := by cases v <;> simp [Json.isNull] at hvnull ⊢
      subst hv
      refine ⟨_, rfl, ?_, ?_⟩ <;>
        simp [Models.VehicleType, runPostInit, postRename, pyLookup, pyDictInsert,
          pyDictRemove, Json.isNull]
    · refine ⟨_, rfl, ?_, ?_⟩ <;>
        simp [Models.VehicleType, runPostInit, postRename, pyLookup, pyDictInsert,
          pyDictRemove, hvnull]
  · intro u data v w c1 c2 c3 hid hmid hname hman hco hdate hvt hpol
    have hguard :
        ¬(u = Unknown.raise ∧
          data.any (fun p => !(declared Models.WorldManufacturerIndex p.1)) = true) := by
      rintro ⟨rfl, hany⟩
      obtain ⟨p, hp, hnp⟩ := List.any_eq_true.1 hany
      rw [hpol rfl p hp] at hnp
      cases hnp
    unfold schemaLoad
    rw [if_neg hguard]
    have hlf : loadFields data Models.WorldManufacturerIndex.fields = .ok
        [("created_on", c1), ("date_available_to_public", c2),
         ("manufacturer", Json.null), ("name", w), ("id", v),
         ("updated_on", (pyLookup data "updated_on").getD Json.null),
         ("vehicle_type", c3),
         ("wmi", (pyLookup data "wmi").getD Json.null),
         ("common_name", (pyLookup data "common_name").getD (Json.str "")),
         ("country", (pyLookup data "country").getD Json.null),
         ("make", (pyLookup data "make").getD (Json.str "")),
         ("manufacturer_id", Json.null),
         ("parent_company_name", (pyLookup data "parent_company_name").getD (Json.str "")),
         ("url", (pyLookup data "url").getD (Json.str ""))] := by
      simp only [Models.WorldManufacturerIndex, loadFields, loadField_defaulted,
        loadField_present data "created_on" c1 none hco,
        loadField_present data "date_available_to_public" c2 none hdate,
        loadField_present data "vehicle_type" c3 none hvt,
        hid, hmid, hname, hman, Option.getD_some, Option.getD_none]
    simp only [hlf]
    by_cases hvnull : v.isNull = true
    · have hv : v = Json.null := by cases v <;> simp [Json.isNull] at hvnull ⊢
      subst hv
      by_cases hwnull : w.isNull = true
      · have hw : w = Json.null := by cases w <;> simp [Json.isNull] at hwnull ⊢
        subst hw
        refine ⟨_, rfl, ?_, ?_, ?_, ?_⟩ <;>
          simp [Models.WorldManufacturerIndex, runPostInit, postRename, pyLookup,
            pyDictInsert, pyDictRemove, Json.isNull]
      · have hn : Json.null.isNull = true := rfl
        refine ⟨_, rfl, ?_, ?_, ?_, ?_⟩ <;>
          simp [Models.WorldManufacturerIndex, runPostInit, postRename, pyLookup,
            pyDictInsert, pyDictRemove, hn, hwnull]
    · by_cases hwnull : w.isNull = true
      · have hw : w = Json.null := by cases w <;> simp [Json.isNull] at hwnull ⊢
        subst hw
        have hn : Json.null.isNull = true := rfl
        refine ⟨_, rfl, ?_, ?_, ?_, ?_⟩ <;>
          simp [Models.WorldManufacturerIndex, runPostInit, postRename, pyLookup,
            pyDictInsert, pyDictRemove, hn, hvnull]
      · refine ⟨_, rfl, ?_, ?_, ?_, ?_⟩ <;>
          simp [Models.WorldManufacturerIndex, runPostInit, postRename, pyLookup,
            pyDictInsert, pyDictRemove, hvnull, hwnull]

/-- C9 (witness): the `VehicleType` half applied to a concrete input
with a `name` key and no `vehicle_type` key, and the
`WorldManufacturerIndex` half applied to a concrete decode-WMI
response. -/
theorem typedMapper_post_init_renames_witness :
    (∃ r, schemaLoad Models.VehicleType .exclude [("name", Json.str "Truck")] = .ok r ∧
      pyLookup r "vehicle_type" = some (Json.str "Truck") ∧
      pyLookup r "name" = none) ∧
    (∃ r, schemaLoad Models.WorldManufacturerIndex .exclude
        [("created_on", Json.str "2015-03-23"),
         ("date_available_to_public", Json.str "2015-01-01"),
         ("name", Json.str "FORD MOTOR COMPANY, USA"),
         ("id", Json.num 976),
         ("vehicle_type", Json.str "Truck ")] = .ok r ∧
      pyLookup r "manufacturer_id" = some (Json.num 976) ∧
      pyLookup r "id" = none ∧
      pyLookup r "manufacturer" = some (Json.str "FORD MOTOR COMPANY, USA") ∧
      pyLookup r "name" = none) := by
  constructor
  · exact typedMapper_post_init_renames.1 .exclude [("name", Json.str "Truck")]
      (Json.str "Truck") rfl rfl (fun h => by cases h)
  · exact typedMapper_post_init_renames.2 .exclude
      [("created_on", Json.str "2015-03-23"),
       ("date_available_to_public", Json.str "2015-01-01"),
       ("name", Json.str "FORD MOTOR COMPANY, USA"),
       ("id", Json.num 976),
       ("vehicle_type", Json.str "Truck ")]
      (Json.num 976) (Json.str "FORD MOTOR COMPANY, USA")
      (Json.str "2015-03-23") (Json.str "2015-01-01") (Json.str "Truck ")
      rfl rfl rfl rfl rfl rfl rfl (fun h => by cases h)
